import Mathlib

/-!
Verification of the `Food1` USDA nutrition-database ingestion pipeline.

The repository contains two near-duplicate ingestion scripts:
  * `src/scripts/populate_usda_db.py` (the "scripts" variant), and
  * `src/proxy/food-vision-api/scripts/populate_usda_db.py` (the "proxy" variant).

This file gives a shallow embedding of the data model and the operations of
both variants (nutrient catalogs, the nutrient filter, the checkpoint
`Progress` object and its `save`/rate-limit methods, the page-collection loop,
the detail-fetch loop with its SQLite statement/commit discipline, the
FTS-index build, and the proxy's `insert_food` and `populate` loop), and
proves or refutes the specification claims about them.

Conventions of the embedding:
  * Python floats carrying nutrient amounts and RDA values are modelled as
    rationals (no float arithmetic is performed by the code on them; they are
    only stored and compared to `None`).
  * Wall-clock timestamps are modelled as natural numbers (deciseconds for the
    scripts variant, whose threshold is 0.1 s; seconds for the proxy variant,
    whose window is one hour = 3600 s).  Timestamp strings recorded in the
    checkpoint purely for reporting (`start_time`, `end_time`,
    `last_updated`) are not modelled.
  * JSON-level optionality (`dict.get` returning `None`) is modelled with
    `Option`.
-/

namespace Food1

/-- Nutrient amounts and RDA values (Python floats used only as opaque data). -/
abbrev Amount := ℚ

/-- Mirrors the `NutrientDef` dataclass shared by both scripts. -/
structure NutrientDef where
  nutrient_id : Int
  name : String
  unit : String
  category : String
  rda_male : Option Amount := none
  rda_female : Option Amount := none
deriving DecidableEq, Repr

/-- The `NUTRIENTS` list of `src/scripts/populate_usda_db.py` (52 entries). -/
def NUTRIENTS : List NutrientDef := [
  ⟨1008, "Energy", "kcal", "macro", none, none⟩,
  ⟨1003, "Protein", "g", "macro", none, none⟩,
  ⟨1005, "Carbohydrate", "g", "macro", none, none⟩,
  ⟨1004, "Total Fat", "g", "macro", none, none⟩,
  ⟨1079, "Total Fiber", "g", "fiber", some 28, some 28⟩,
  ⟨1082, "Soluble Fiber", "g", "fiber", none, none⟩,
  ⟨1084, "Insoluble Fiber", "g", "fiber", none, none⟩,
  ⟨2000, "Total Sugars", "g", "fiber", none, none⟩,
  ⟨1258, "Saturated Fat", "g", "fatty_acid", none, none⟩,
  ⟨1292, "Monounsaturated Fat", "g", "fatty_acid", none, none⟩,
  ⟨1293, "Polyunsaturated Fat", "g", "fatty_acid", none, none⟩,
  ⟨1257, "Trans Fat", "g", "fatty_acid", none, none⟩,
  ⟨1404, "Omega-3 Fatty Acids", "g", "fatty_acid", none, none⟩,
  ⟨1405, "Omega-6 Fatty Acids", "g", "fatty_acid", none, none⟩,
  ⟨1106, "Vitamin A", "mcg", "vitamin", some 900, some 700⟩,
  ⟨1165, "Vitamin B1 (Thiamin)", "mg", "vitamin", some 1.2, some 1.1⟩,
  ⟨1166, "Vitamin B2 (Riboflavin)", "mg", "vitamin", some 1.3, some 1.1⟩,
  ⟨1167, "Vitamin B3 (Niacin)", "mg", "vitamin", some 16, some 14⟩,
  ⟨1175, "Vitamin B5 (Pantothenic Acid)", "mg", "vitamin", some 5, some 5⟩,
  ⟨1176, "Vitamin B6", "mg", "vitamin", some 1.3, some 1.3⟩,
  ⟨1177, "Folate (Vitamin B9)", "mcg", "vitamin", some 400, some 400⟩,
  ⟨1178, "Vitamin B12", "mcg", "vitamin", some 2.4, some 2.4⟩,
  ⟨1162, "Vitamin C", "mg", "vitamin", some 90, some 75⟩,
  ⟨1114, "Vitamin D", "mcg", "vitamin", some 15, some 15⟩,
  ⟨1109, "Vitamin E", "mg", "vitamin", some 15, some 15⟩,
  ⟨1185, "Vitamin K", "mcg", "vitamin", some 120, some 90⟩,
  ⟨1180, "Choline", "mg", "vitamin", some 550, some 425⟩,
  ⟨1190, "Biotin (Vitamin B7)", "mcg", "vitamin", some 30, some 30⟩,
  ⟨1170, "Vitamin B12 (added)", "mcg", "vitamin", none, none⟩,
  ⟨1087, "Calcium", "mg", "mineral", some 1000, some 1000⟩,
  ⟨1089, "Iron", "mg", "mineral", some 8, some 18⟩,
  ⟨1090, "Magnesium", "mg", "mineral", some 400, some 310⟩,
  ⟨1091, "Phosphorus", "mg", "mineral", some 700, some 700⟩,
  ⟨1092, "Potassium", "mg", "mineral", some 3400, some 2600⟩,
  ⟨1093, "Sodium", "mg", "mineral", some 2300, some 2300⟩,
  ⟨1095, "Zinc", "mg", "mineral", some 11, some 8⟩,
  ⟨1098, "Copper", "mg", "mineral", some 0.9, some 0.9⟩,
  ⟨1101, "Manganese", "mg", "mineral", some 2.3, some 1.8⟩,
  ⟨1103, "Selenium", "mcg", "mineral", some 55, some 55⟩,
  ⟨1096, "Chromium", "mcg", "mineral", some 35, some 25⟩,
  ⟨1102, "Molybdenum", "mcg", "mineral", some 45, some 45⟩,
  ⟨1100, "Iodine", "mcg", "mineral", some 150, some 150⟩,
  ⟨1051, "Water", "g", "other", none, none⟩,
  ⟨1253, "Cholesterol", "mg", "other", some 300, some 300⟩]

/-- Ids of the seeded catalog of the scripts variant: mirrors the Python set
`NUTRIENT_IDS = \x7bn.nutrient_id for n in NUTRIENTS\x7d` (membership view). -/
def NUTRIENT_IDS : List Int := NUTRIENTS.map (·.nutrient_id)

/-- The `NUTRIENTS` list of the proxy variant
(`src/proxy/food-vision-api/scripts/populate_usda_db.py`).  Note that it
lists id 1253 twice (Trans Fat and Cholesterol), exactly as the source does. -/
def proxyNUTRIENTS : List NutrientDef := [
  ⟨1008, "Energy", "kcal", "macro", none, none⟩,
  ⟨1003, "Protein", "g", "macro", none, none⟩,
  ⟨1005, "Carbohydrate", "g", "macro", none, none⟩,
  ⟨1004, "Total Fat", "g", "macro", none, none⟩,
  ⟨1079, "Total Fiber", "g", "fiber", some 38, some 25⟩,
  ⟨1082, "Soluble Fiber", "g", "fiber", none, none⟩,
  ⟨1084, "Insoluble Fiber", "g", "fiber", none, none⟩,
  ⟨2000, "Total Sugars", "g", "fiber", none, none⟩,
  ⟨1258, "Saturated Fat", "g", "fatty_acid", none, none⟩,
  ⟨1292, "Monounsaturated Fat", "g", "fatty_acid", none, none⟩,
  ⟨1293, "Polyunsaturated Fat", "g", "fatty_acid", none, none⟩,
  ⟨1404, "Omega-3 Fatty Acids", "g", "fatty_acid", none, none⟩,
  ⟨1405, "Omega-6 Fatty Acids", "g", "fatty_acid", none, none⟩,
  ⟨1253, "Trans Fat", "g", "fatty_acid", none, none⟩,
  ⟨1087, "Calcium", "mg", "mineral", some 1300, some 1300⟩,
  ⟨1089, "Iron", "mg", "mineral", some 8, some 18⟩,
  ⟨1090, "Magnesium", "mg", "mineral", some 420, some 320⟩,
  ⟨1092, "Potassium", "mg", "mineral", some 4700, some 4700⟩,
  ⟨1095, "Zinc", "mg", "mineral", some 11, some 8⟩,
  ⟨1093, "Sodium", "mg", "mineral", some 2300, some 2300⟩,
  ⟨1091, "Phosphorus", "mg", "mineral", some 700, some 700⟩,
  ⟨1098, "Copper", "mg", "mineral", some 0.9, some 0.9⟩,
  ⟨1101, "Manganese", "mg", "mineral", some 2.3, some 1.8⟩,
  ⟨1103, "Selenium", "mcg", "mineral", some 55, some 55⟩,
  ⟨1096, "Chromium", "mcg", "mineral", some 35, some 25⟩,
  ⟨1102, "Molybdenum", "mcg", "mineral", some 45, some 45⟩,
  ⟨1100, "Iodine", "mcg", "mineral", some 150, some 150⟩,
  ⟨1106, "Vitamin A", "mcg", "vitamin", some 900, some 700⟩,
  ⟨1165, "Vitamin B1", "mg", "vitamin", some 1.2, some 1.1⟩,
  ⟨1166, "Vitamin B2", "mg", "vitamin", some 1.3, some 1.1⟩,
  ⟨1167, "Vitamin B3", "mg", "vitamin", some 16, some 14⟩,
  ⟨1170, "Vitamin B5", "mg", "vitamin", some 5, some 5⟩,
  ⟨1175, "Vitamin B6", "mg", "vitamin", some 1.3, some 1.3⟩,
  ⟨1176, "Vitamin B7", "mcg", "vitamin", some 30, some 30⟩,
  ⟨1177, "Vitamin B9", "mcg", "vitamin", some 400, some 400⟩,
  ⟨1178, "Vitamin B12", "mcg", "vitamin", some 2.4, some 2.4⟩,
  ⟨1162, "Vitamin C", "mg", "vitamin", some 90, some 75⟩,
  ⟨1114, "Vitamin D", "mcg", "vitamin", some 20, some 20⟩,
  ⟨1109, "Vitamin E", "mg", "vitamin", some 15, some 15⟩,
  ⟨1185, "Vitamin K", "mcg", "vitamin", some 120, some 90⟩,
  ⟨1180, "Choline", "mg", "vitamin", some 550, some 425⟩,
  ⟨1104, "Vitamin A (IU)", "IU", "vitamin", none, none⟩,
  ⟨1051, "Water", "g", "other", none, none⟩,
  ⟨1253, "Cholesterol", "mg", "other", none, none⟩]

/-- Ids seeded by the proxy variant's `init_database`. -/
def proxyNutrientIds : List Int := proxyNUTRIENTS.map (·.nutrient_id)

/-! ## Raw API response shapes

`detail(id)` returns a JSON object whose `foodNutrients` entries are accessed
as `nutrient.get("nutrient", \x7b\x7d).get("id")` and `nutrient.get("amount")`;
both accesses can yield `None`, modelled by `Option`. -/

/-- One entry of a detail response's `foodNutrients` list. -/
structure RawNutrient where
  nid : Option Int
  amount : Option Amount
deriving DecidableEq, Repr

/-- A detail-fetch response, as far as the scripts read it: the scripts
variant reads `description`, `foodCategory.description` and `foodNutrients`;
the proxy variant additionally reads `commonNames` and `dataType`. -/
structure FoodDetail where
  fdcId : Int
  description : String
  commonNames : String
  category : String
  dataType : String
  nutrients : List RawNutrient
deriving DecidableEq, Repr

/-- A search-result summary; `food.get("fdcId")` can be absent. -/
structure FoodSummary where
  fdcId : Option Int
  description : String
deriving DecidableEq, Repr

/-- Python truthiness of an optional integer id (`if fdc_id:`):
`None` and `0` are falsy. -/
def truthyId : Option Int → Option Int
  | none => none
  | some i => if i = 0 then none else some i

/-! ## Nutrient mapping (Detail Fetcher and Nutrient Mapper)

The scripts variant (`populate_database`, the nutrient-extraction block)
builds a Python dict `nutrient_values` keeping only entries whose id is in
`NUTRIENT_IDS` and whose amount is not `None`.  The proxy variant
(`USDADatabasePopulator.insert_food`) has no catalog check: it inserts every
entry whose id is truthy and whose amount is not `None`. -/

/-- Python dict assignment `m[k] = v` on an insertion-ordered association
list: replaces the value in place if the key is present, appends otherwise. -/
def dictSet {α : Type} (m : List (Int × α)) (k : Int) (v : α) : List (Int × α) :=
  if m.any (fun p => p.1 = k) then m.map (fun p => if p.1 = k then (k, v) else p)
  else m ++ [(k, v)]

/-- One step of the scripts variant's nutrient extraction: keep the entry iff
its id is a member of `NUTRIENT_IDS` and its amount is present
(`if nutrient_id in NUTRIENT_IDS and amount is not None`). -/
def nutrientStep (acc : List (Int × Amount)) (e : RawNutrient) : List (Int × Amount) :=
  match e.nid, e.amount with
  | some i, some a => if i ∈ NUTRIENT_IDS then dictSet acc i a else acc
  | _, _ => acc

/-- The scripts variant's nutrient extraction over a detail response's
`foodNutrients` list (the `nutrient_values` dict, in insertion order). -/
def scriptsNutrientValues (entries : List RawNutrient) : List (Int × Amount) :=
  entries.foldl nutrientStep []

/-! ## Relational store

SQLite statements executed by the two variants, and the effect of applying a
committed sequence of them to the three tables.  `INSERT OR REPLACE` on a
table with a primary key is keyed replacement. -/

/-- A row of `usda_foods`.  The `extra` column holds the variant-specific
fifth column: `search_terms` for the scripts variant (always written as the
empty string) and `data_type` for the proxy variant. -/
structure FoodRow where
  fdc_id : Int
  description : String
  common_name : String
  category : String
  extra : String
deriving DecidableEq, Repr

/-- A row of `food_nutrients` (composite key `(fdc_id, nutrient_id)`). -/
structure NutRow where
  fdc_id : Int
  nutrient_id : Int
  amount : Amount
deriving DecidableEq, Repr

/-- A SQLite statement, as issued by either variant. -/
inductive DbOp
  | insertFood (row : FoodRow)
  | insertNutrient (fdcId nutrientId : Int) (amount : Amount)
  | insertFts (fdcId : Int) (description common : String)
  | ftsBulkBuild
  | analyzeDb
  | vacuumDb
deriving DecidableEq, Repr

/-- Statement effect of `INSERT OR REPLACE INTO usda_foods` (primary key `fdc_id`). -/
def upsertFood (t : List FoodRow) (r : FoodRow) : List FoodRow :=
  if t.any (fun x => x.fdc_id = r.fdc_id) then
    t.map (fun x => if x.fdc_id = r.fdc_id then r else x)
  else t ++ [r]

/-- Statement effect of `INSERT OR REPLACE INTO food_nutrients` (composite key). -/
def upsertNut (t : List NutRow) (r : NutRow) : List NutRow :=
  if t.any (fun x => x.fdc_id = r.fdc_id ∧ x.nutrient_id = r.nutrient_id) then
    t.map (fun x => if x.fdc_id = r.fdc_id ∧ x.nutrient_id = r.nutrient_id then r else x)
  else t ++ [r]

/-- Statement effect of `INSERT OR REPLACE` into the FTS table, keyed by rowid. -/
def upsertFts (t : List (Int × String × String)) (r : Int × String × String) :
    List (Int × String × String) :=
  if t.any (fun x => x.1 = r.1) then t.map (fun x => if x.1 = r.1 then r else x)
  else t ++ [r]

/-- The three persisted tables (nutrient definitions are seeded separately
and immutable afterwards, so they are not threaded here). -/
structure Db where
  foods : List FoodRow
  nutrients : List NutRow
  fts : List (Int × String × String)
deriving DecidableEq, Repr

/-- The empty database. -/
def Db.empty : Db := ⟨[], [], []⟩

/-- Effect of one committed statement on the tables.  `ftsBulkBuild` is the
scripts variant's post-load `INSERT INTO food_search ... SELECT ... FROM
usda_foods`; `ANALYZE` and `VACUUM` do not change table contents. -/
def applyDbOp (db : Db) : DbOp → Db
  | .insertFood r => { db with foods := upsertFood db.foods r }
  | .insertNutrient f n a => { db with nutrients := upsertNut db.nutrients ⟨f, n, a⟩ }
  | .insertFts i d c => { db with fts := upsertFts db.fts (i, d, c) }
  | .ftsBulkBuild => { db with fts := db.foods.map (fun r => (r.fdc_id, r.description, r.common_name)) }
  | .analyzeDb => db
  | .vacuumDb => db

/-- Apply a committed statement sequence in order. -/
def applyDbOps (db : Db) (ops : List DbOp) : Db := ops.foldl applyDbOp db

/-- The proxy variant's `insert_food(food_data)`: one `usda_foods` insert, one
per-record FTS insert, then one `food_nutrients` insert for every raw entry
whose id is truthy and whose amount is present — no catalog membership check. -/
def proxyInsertFoodOps (f : FoodDetail) : List DbOp :=
  [.insertFood ⟨f.fdcId, f.description, f.commonNames, f.category, f.dataType⟩,
   .insertFts f.fdcId f.description f.commonNames] ++
  f.nutrients.filterMap (fun e =>
    match truthyId e.nid, e.amount with
    | some i, some a => some (.insertNutrient f.fdcId i a)
    | _, _ => none)

/-- The `food_nutrients` statements among a statement sequence. -/
def nutrientInserts (ops : List DbOp) : List NutRow :=
  ops.filterMap (fun op =>
    match op with
    | .insertNutrient f n a => some ⟨f, n, a⟩
    | _ => none)

/-- Whether a statement writes the full-text search structure. -/
def isFtsWrite : DbOp → Bool
  | .insertFts _ _ _ => true
  | .ftsBulkBuild => true
  | _ => false

/-! ## Checkpoint store: the file-level behaviour of `Progress.save`

Both variants implement `save` as
`with open(filepath, 'w') as f: json.dump(asdict(self), f, indent=2)`:
the destination file itself is opened in truncating write mode and the JSON
text is streamed into it.  We model the file system as a map from paths to
chunk lists and a save as the sequence of file operations it performs; a
crash during a save is an arbitrary prefix of that sequence. -/

/-- A file-system operation. -/
inductive FsOp
  | openTrunc (path : String)
  | writeChunk (path : String) (chunk : String)
  | closeFile (path : String)
  | renameFile (src dst : String)
deriving DecidableEq, Repr

/-- File system: what each path currently contains (`none` = absent). -/
abbrev FileSys := String → Option (List String)

/-- Content of a file, `none` when the path does not exist. -/
def fsGet (fs : FileSys) (p : String) : Option (List String) := fs p

/-- Create or overwrite the file at `p` with content `c`. -/
def fsSet (fs : FileSys) (p : String) (c : List String) : FileSys :=
  fun q => if q = p then some c else fs q

/-- Remove the file at `p`. -/
def fsRemove (fs : FileSys) (p : String) : FileSys :=
  fun q => if q = p then none else fs q

/-- Effect of one file operation. -/
def applyFsOp (fs : FileSys) : FsOp → FileSys
  | .openTrunc p => fsSet fs p []
  | .writeChunk p c => fsSet fs p ((fsGet fs p).getD [] ++ [c])
  | .closeFile _ => fs
  | .renameFile s d =>
      match fsGet fs s with
      | some c => fsRemove (fsSet fs d c) s
      | none => fs

/-- Apply a sequence of file operations. -/
def applyFsOps (fs : FileSys) (ops : List FsOp) : FileSys := ops.foldl applyFsOp fs

/-- The operation sequence of `Progress.save(path)` in both variants:
truncate the checkpoint file in place, then stream the JSON text
(as a list of chunks) into it. -/
def progressSaveOps (path : String) (content : List String) : List FsOp :=
  FsOp.openTrunc path :: (content.map (fun c => FsOp.writeChunk path c) ++ [FsOp.closeFile path])

/-- Modelled from the spec: the write-to-temporary-file-then-rename save that
section 4.5 claims (`save(checkpoint, path)` writes atomically).  No such code
exists in either variant; this definition follows the spec words and is used
to state what the claim would require. -/
def atomicSaveOps (tmp path : String) (content : List String) : List FsOp :=
  FsOp.openTrunc tmp ::
    (content.map (fun c => FsOp.writeChunk tmp c) ++
      [FsOp.closeFile tmp, FsOp.renameFile tmp path])

/-! ## Rate limiters

The scripts variant (`Progress.can_make_api_call`) keeps only the timestamp
of the last call and allows a call whenever at least 0.1 s has elapsed since
it; `wait_for_rate_limit` sleeps 0.1 s when the check fails and then returns
without rechecking.  Times are in tenths of a second (one hour = 36000).

The proxy variant keeps `api_calls_count` and `last_api_call`;
`can_make_api_call` resets the counter when more than one hour has passed
since the last call and otherwise admits while the counter is below 900;
`wait_for_rate_limit` sleeps until `last_api_call + 1h` and resets the
counter; `record_api_call` stamps the time and increments the counter.
Times are in seconds (one hour = 3600). -/

/-- Configured ceiling (both variants name 900; the provider limit is 1000). -/
def RATE_LIMIT_PER_HOUR : ℕ := 900

/-- scripts `Progress.can_make_api_call` (times in tenths of a second):
true when no call was made yet, or at least 0.1 s elapsed since the last. -/
def scriptsCanCall (now : ℕ) (lastApiCall : Option ℕ) : Bool :=
  match lastApiCall with
  | none => true
  | some l => decide (1 ≤ now - l)

/-- A call trace as admitted by the scripts limiter without any waiting:
each call time satisfies `can_make_api_call` against the previous call. -/
def scriptsGateOk : Option ℕ → List ℕ → Bool
  | _, [] => true
  | last, t :: rest => scriptsCanCall t last && scriptsGateOk (some t) rest

/-- Modelled from the spec: the number of recorded calls lying in the rolling
one-hour window ending at `now` (times in tenths of a second). -/
def rollingWindowCount (times : List ℕ) (now : ℕ) : ℕ :=
  (times.filter (fun t => now - t < 36000)).length

/-- Proxy rate-limiter state: `api_calls_count` and `last_api_call`. -/
structure RLState where
  count : ℕ
  last : Option ℕ
deriving DecidableEq, Repr

/-- Proxy `can_make_api_call`: the returned boolean together with the
possibly counter-reset state (the check mutates `api_calls_count`). -/
def proxyCanCall (now : ℕ) (s : RLState) : Bool × RLState :=
  match s.last with
  | none => (true, s)
  | some l =>
      if 3600 < now - l then (true, { s with count := 0 })
      else (decide (s.count < RATE_LIMIT_PER_HOUR), s)

/-- Proxy `record_api_call`. -/
def proxyRecordCall (now : ℕ) (s : RLState) : RLState :=
  ⟨s.count + 1, some now⟩

/-- One realized call of the proxy gating discipline
(`if not can_make_api_call(): wait_for_rate_limit()`, then the call and
`record_api_call()`), indexed by the realized call time:

* `first`: no call recorded yet;
* `bigGap`: more than one hour since the last call, so `can_make_api_call`
  resets the counter and admits;
* `underLimit`: within the hour and the counter is below the ceiling;
* `slipThrough`: the counter is at the ceiling and the request arrives at
  exactly `last + 1h`: `can_make_api_call` returns false, but
  `wait_for_rate_limit` sees `now == next_window`, sleeps zero and does not
  reset, and the call proceeds anyway;
* `waited`: the counter is at the ceiling and `wait_for_rate_limit` sleeps
  until `last + 1h` (possibly overshooting), resets the counter, and the
  call proceeds. -/
inductive ProxyStep : RLState → ℕ → RLState → Prop
  | first (c t : ℕ) : ProxyStep ⟨c, none⟩ t ⟨c + 1, some t⟩
  | bigGap (c l t : ℕ) (h : 3600 < t - l) : ProxyStep ⟨c, some l⟩ t ⟨1, some t⟩
  | underLimit (c l t : ℕ) (hle : l ≤ t) (hgap : t - l ≤ 3600)
      (hc : c < RATE_LIMIT_PER_HOUR) : ProxyStep ⟨c, some l⟩ t ⟨c + 1, some t⟩
  | slipThrough (c l : ℕ) (hc : RATE_LIMIT_PER_HOUR ≤ c) :
      ProxyStep ⟨c, some l⟩ (l + 3600) ⟨c + 1, some (l + 3600)⟩
  | waited (c l t : ℕ) (hc : RATE_LIMIT_PER_HOUR ≤ c) (ht : l + 3600 ≤ t) :
      ProxyStep ⟨c, some l⟩ t ⟨1, some t⟩

/-- A full realized call trace of the proxy gating discipline. -/
inductive ProxyRun : RLState → List ℕ → RLState → Prop
  | nil (s : RLState) : ProxyRun s [] s
  | cons {s s2 s3 : RLState} {t : ℕ} {rest : List ℕ} :
      ProxyStep s t s2 → ProxyRun s2 rest s3 → ProxyRun s (t :: rest) s3

/-! ## The scripts variant's `populate_database`

Environment: the paged search responses, the per-id detail responses
(`none` = request failed after retries), and which SQLite statements raise
`sqlite3.Error`.  Wall-clock timestamps recorded purely for reporting are not
modelled (no claim mentions them); the rate limiter is modelled separately
above, since in this variant it only spaces calls 0.1 s apart and influences
no persisted or counted observable. -/

/-- Environment of one scripts-variant run. -/
structure ScriptsEnv where
  pages : ℕ → List FoodSummary
  totalHits : ℕ
  detail : Int → Option FoodDetail
  insertErr : DbOp → Bool

/-- The checkpoint document (`Progress` fields that claims mention):
target count, completed ids, failed ids, run status. -/
structure Snap where
  target : Int
  completed : List Int
  failed : List Int
  status : String
deriving DecidableEq, Repr

/-- CLI-level input: `--foods` target, `--resume` flag, and the
`Progress.load()` result (`none` when the progress file does not exist). -/
structure ScriptsInput where
  target : Int
  resume : Bool
  checkpoint : Option Snap
deriving DecidableEq, Repr

/-- Initial progress: the loaded checkpoint when resuming and present,
otherwise a fresh `Progress` recording the CLI target. -/
def scriptsInitSnap (inp : ScriptsInput) : Snap :=
  match inp.resume, inp.checkpoint with
  | true, some cp => cp
  | _, _ => ⟨inp.target, [], [], "in_progress"⟩

/-- One food of page-1 collection
(`if fdc_id and fdc_id not in progress.completed_food_ids` followed by a
dict assignment). -/
def collectPage1Step (completed : List Int) (m : List (Int × FoodSummary))
    (f : FoodSummary) : List (Int × FoodSummary) :=
  match truthyId f.fdcId with
  | none => m
  | some id => if id ∈ completed then m else dictSet m id f

/-- Page-1 collection. -/
def scriptsCollectPage1 (completed : List Int) (foods : List FoodSummary) :
    List (Int × FoodSummary) :=
  foods.foldl (collectPage1Step completed) []

/-- One food of a later page's collection: skip falsy ids, ids already
collected, and ids in the completed set; append the rest. -/
def addPageStep (completed : List Int) (m : List (Int × FoodSummary))
    (f : FoodSummary) : List (Int × FoodSummary) :=
  match truthyId f.fdcId with
  | none => m
  | some id =>
      if m.any (fun p => p.1 = id) then m
      else if id ∈ completed then m
      else m ++ [(id, f)]

/-- Collection of one later page. -/
def scriptsAddPage (completed : List Int) (m : List (Int × FoodSummary))
    (foods : List FoodSummary) : List (Int × FoodSummary) :=
  foods.foldl (addPageStep completed) m

/-- Number of pages: `(total_hits + page_size - 1) // page_size` with
`page_size = 200`. -/
def scriptsTotalPages (totalHits : ℕ) : ℕ := (totalHits + 200 - 1) / 200

/-- The whole pagination pass: page 1, then pages `2 .. totalPages`
(an empty later page only skips the merge, it does not stop the loop). -/
def scriptsCollect (env : ScriptsEnv) (completed : List Int) :
    List (Int × FoodSummary) :=
  (List.range' 2 (scriptsTotalPages env.totalHits - 1)).foldl
    (fun m p => scriptsAddPage completed m (env.pages p))
    (scriptsCollectPage1 completed (env.pages 1))

/-- The pages fetched by the pagination pass, in order. -/
def scriptsSearchCalls (totalHits : ℕ) : List ℕ :=
  1 :: List.range' 2 (scriptsTotalPages totalHits - 1)

/-- Mutable state threaded through the detail-fetch loop.  `pending` holds
statements executed on the connection but not yet committed; `db` holds the
durable (committed) contents; `opsLog` records every executed statement;
`saves` records every checkpoint written to disk, in order. -/
structure ScriptsSt where
  target : Int
  completed : List Int
  failed : List Int
  status : String
  pending : List DbOp
  db : Db
  detailCalls : List Int
  opsLog : List DbOp
  saves : List Snap
deriving DecidableEq, Repr

/-- The checkpoint a `progress.save()` writes from state `st`. -/
def ScriptsSt.snap (st : ScriptsSt) : Snap :=
  ⟨st.target, st.completed, st.failed, st.status⟩

/-- Execute a statement list on the connection: statements succeed in order
until one raises (`sqlite3.Error`); returns the successfully executed prefix
and whether an error occurred. -/
def execStmts (env : ScriptsEnv) : List DbOp → List DbOp × Bool
  | [] => ([], false)
  | op :: rest =>
      if env.insertErr op then ([], true)
      else
        let r := execStmts env rest
        (op :: r.1, r.2)

/-- The per-food statement block: the `usda_foods` upsert (common name taken
from the search summary, `search_terms` always empty) followed by one
`food_nutrients` upsert per filtered nutrient. -/
def scriptsFoodStmts (fid : Int) (s : FoodSummary) (d : FoodDetail) : List DbOp :=
  DbOp.insertFood ⟨fid, d.description, s.description, d.category, ""⟩ ::
    (scriptsNutrientValues d.nutrients).map (fun p => DbOp.insertNutrient fid p.1 p.2)

/-- Try to write one food: execute its statement block; on success
`conn.commit()` makes the pending statements durable and the id joins the
completed list; a raised `sqlite3.Error` is caught, the id joins the failed
list, and the partially executed statements stay uncommitted on the
connection (no rollback). -/
def scriptsCommitFood (env : ScriptsEnv) (fid : Int) (s : FoodSummary)
    (d : FoodDetail) (st1 : ScriptsSt) : ScriptsSt :=
  let r := execStmts env (scriptsFoodStmts fid s d)
  if r.2 then
    { st1 with pending := st1.pending ++ r.1,
               opsLog := st1.opsLog ++ r.1,
               failed := st1.failed ++ [fid] }
  else
    { st1 with pending := ([] : List DbOp),
               db := applyDbOps st1.db (st1.pending ++ r.1),
               opsLog := st1.opsLog ++ r.1,
               completed := st1.completed ++ [fid] }

/-- The periodic checkpoint save (`if i % 50 == 0: progress.save()`),
reached only by iterations that fall through the whole body. -/
def scriptsSaveCheck (i : ℕ) (st : ScriptsSt) : ScriptsSt :=
  if i % 50 = 0 then { st with saves := st.saves ++ [st.snap] } else st

/-- One iteration of the detail-fetch loop, for the `i`-th collected food
(1-based): skip ids already completed; fetch detail (a failure appends to
the failed list and `continue`s, skipping the periodic-save check); on
success run `scriptsCommitFood` and then the periodic-save check. -/
def scriptsProcessOne (env : ScriptsEnv) (i : ℕ) (fid : Int) (s : FoodSummary)
    (st : ScriptsSt) : ScriptsSt :=
  if fid ∈ st.completed then st
  else
    let st1 := { st with detailCalls := st.detailCalls ++ [fid] }
    match env.detail fid with
    | none => { st1 with failed := st1.failed ++ [fid] }
    | some d => scriptsSaveCheck i (scriptsCommitFood env fid s d st1)

/-- The detail-fetch loop over the collected foods. -/
def scriptsDetailLoop (env : ScriptsEnv) :
    List (Int × FoodSummary) → ℕ → ScriptsSt → ScriptsSt
  | [], _, st => st
  | (fid, s) :: rest, i, st =>
      scriptsDetailLoop env rest (i + 1) (scriptsProcessOne env i fid s st)

/-- The statements the post-loop finalize successfully executes: the
one-shot FTS build from the final food table and `ANALYZE`.  The
`cursor.execute("VACUUM")` issued next always raises
`sqlite3.OperationalError` (cannot VACUUM from within a transaction) on the
Python versions this script runs on, because the FTS-build `INSERT` opened
an implicit transaction that is never committed first — so the VACUUM
statement never executes. -/
def scriptsFinalizeStmts : List DbOp :=
  [DbOp.ftsBulkBuild, DbOp.analyzeDb]

/-- End of `populate_database` as it actually executes: the FTS-build
`INSERT` and `ANALYZE` run inside the implicit transaction that also holds
any leftover uncommitted per-food statements, and the `VACUUM` then raises.
The exception propagates to `main`, which prints a fatal error and exits
with status 1: the final `conn.commit()`, the status update to completed
and the final `progress.save()` are never reached, and the open transaction
— the pending statements and the FTS build — rolls back at process exit.
Durable tables, status and saved checkpoints are therefore exactly those of
the loop's final state; only the statement log gains the two statements
that did execute. -/
def scriptsFinalize (st : ScriptsSt) : ScriptsSt :=
  { st with pending := ([] : List DbOp),
            opsLog := st.opsLog ++ scriptsFinalizeStmts }

/-- Initial loop state for a run: the pagination pass saves the (unchanged)
checkpoint every 10 pages. -/
def scriptsInitSt (env : ScriptsEnv) (s0 : Snap) : ScriptsSt :=
  ⟨s0.target, s0.completed, s0.failed, s0.status, [], Db.empty, [], [],
   ((List.range' 2 (scriptsTotalPages env.totalHits - 1)).filter
      (fun p => p % 10 = 0)).map (fun _ => s0)⟩

/-- The ingestion part of `populate_database`: pagination then the
detail-fetch loop (everything before the FTS build). -/
def scriptsIngest (env : ScriptsEnv) (inp : ScriptsInput) : ScriptsSt :=
  let s0 := scriptsInitSnap inp
  scriptsDetailLoop env (scriptsCollect env s0.completed) 1 (scriptsInitSt env s0)

/-- Result of a full `populate_database` run.  `aborted` is the early return
taken when the first page reports `totalHits = 0`. -/
structure ScriptsResult where
  aborted : Bool
  searchCalls : List ℕ
  st : ScriptsSt
deriving Repr

/-- A full uninterrupted `populate_database` run.  Unless aborted on an
empty first page, it always ends in the finalize step's VACUUM error and
the fatal-exit path, so the durable state is the loop's final state. -/
def scriptsPopulate (env : ScriptsEnv) (inp : ScriptsInput) : ScriptsResult :=
  let s0 := scriptsInitSnap inp
  if env.totalHits = 0 then
    ⟨true, [1], scriptsInitSt env s0⟩
  else
    ⟨false, scriptsSearchCalls env.totalHits, scriptsFinalize (scriptsIngest env inp)⟩

/-- The loop state after the detail-fetch loop has processed the first `k`
collected foods of a run (the point where a `KeyboardInterrupt` arrives;
when `k` covers every collected food, the loop's final state). -/
def scriptsStateAfter (env : ScriptsEnv) (inp : ScriptsInput) (k : ℕ) : ScriptsSt :=
  let s0 := scriptsInitSnap inp
  scriptsDetailLoop env ((scriptsCollect env s0.completed).take k) 1 (scriptsInitSt env s0)

/-- The checkpoint on disk after `main` catches a `KeyboardInterrupt` that
arrived once the loop had processed `k` foods: the handler prints
`Interrupted by user. Progress saved.` and calls `sys.exit(0)` without
invoking `Progress.save` (the `progress` object is local to
`populate_database`), so the file still holds whatever the last periodic
save wrote — `none` when nothing was ever saved this run. -/
def scriptsDiskAfterInterrupt (env : ScriptsEnv) (inp : ScriptsInput) (k : ℕ) :
    Option Snap :=
  (scriptsStateAfter env inp k).saves.getLast?

/-! ## The proxy variant's `USDADatabasePopulator.populate`

The proxy has no `totalPages` computation: it loops
`while completed_foods < total_foods`, fetching the page at the current
offset, filtering out ids in the in-memory `completed_ids` set, processing
the rest in detail batches of 20, advancing `offset += 200`, and breaking
only when a page comes back empty.  The model below covers exception-free
executions (no search or batch call raises; `insert_food` succeeds), which
is all the claims about this loop exercise; `time.sleep` calls are modelled
by the clock advancing one second per API call. -/

/-- A proxy search summary (`f["fdcId"]` is accessed by direct indexing). -/
structure ProxySummary where
  fdcId : Int
  description : String
deriving DecidableEq, Repr

/-- Environment of a proxy run: paged search responses (by page number
`offset // 200 + 1`) and the per-id entries of batch detail responses
(`none` = the id is absent from the response). -/
structure ProxyEnv where
  searchPages : ℕ → List ProxySummary
  detail : Int → Option FoodDetail

/-- State threaded through the proxy's `populate` loop. -/
structure ProxySt where
  rl : RLState
  clock : ℕ
  completedFoods : ℕ
  failedFoods : ℕ
  completedList : List Int
  failedList : List Int
  completedIds : List Int
  searchCalls : List ℕ
  detailBatches : List (List Int)
  pending : List DbOp
  db : Db
  saves : ℕ
deriving DecidableEq, Repr

/-- Gate check `if not self.can_make_api_call(): self.wait_for_rate_limit()`:
when the check fails, sleep until `last_api_call + 1h` (a no-op if that
moment has already passed, in which case the counter is not reset either)
and reset the counter. -/
def proxyGate (st : ProxySt) : ProxySt :=
  let r := proxyCanCall st.clock st.rl
  if r.1 then { st with rl := r.2 }
  else
    match st.rl.last with
    | some l =>
        if st.clock < l + 3600 then
          { st with clock := l + 3600, rl := { st.rl with count := 0 } }
        else st
    | none => st

/-- Record an API call and let one second pass. -/
def proxyRecord (st : ProxySt) : ProxySt :=
  { st with rl := proxyRecordCall st.clock st.rl, clock := st.clock + 1 }

/-- Batch splitting, one element at a time: `cap` is the remaining capacity
of the chunk being accumulated (in reverse) in `acc`. -/
def chunksGo {α : Type} : ℕ → List α → List α → List (List α)
  | _, acc, [] => [acc.reverse]
  | 0, acc, x :: xs => acc.reverse :: chunksGo 19 [x] xs
  | cap + 1, acc, x :: xs => chunksGo cap (x :: acc) xs

/-- Split a list into the proxy's detail batches (`BATCH_SIZE = 20`). -/
def chunks20 {α : Type} : List α → List (List α)
  | [] => []
  | x :: xs => chunksGo 19 [x] xs

/-- Successful `insert_food` for one detailed food, plus the progress
bookkeeping around it (append to the completed list, bump the counter, add
to the in-memory set). -/
def proxyProcessFood (st : ProxySt) (f : FoodDetail) : ProxySt :=
  { st with pending := st.pending ++ proxyInsertFoodOps f,
            completedList := st.completedList ++ [f.fdcId],
            completedFoods := st.completedFoods + 1,
            completedIds := st.completedIds ++ [f.fdcId] }

/-- One detail batch: gate, batch detail call, insert each returned food,
`conn.commit()`, then the periodic progress save
(`completed_foods % SAVE_INTERVAL == 0`). -/
def proxyProcessBatch (env : ProxyEnv) (st : ProxySt) (batch : List ProxySummary) :
    ProxySt :=
  let st1 := proxyGate st
  let ids := batch.map (·.fdcId)
  let st2 := proxyRecord { st1 with detailBatches := st1.detailBatches ++ [ids] }
  let st3 := (ids.filterMap env.detail).foldl proxyProcessFood st2
  let st4 : ProxySt := { st3 with pending := ([] : List DbOp), db := applyDbOps st3.db st3.pending }
  if st4.completedFoods % 50 = 0 then { st4 with saves := st4.saves + 1 } else st4

/-- The batch loop over one page's new foods, with the early
`if completed_foods >= total_foods: break`. -/
def proxyBatchLoop (env : ProxyEnv) (total : ℕ) :
    List (List ProxySummary) → ProxySt → ProxySt
  | [], st => st
  | b :: rest, st =>
      let st2 := proxyProcessBatch env st b
      if total ≤ st2.completedFoods then st2
      else proxyBatchLoop env total rest st2

/-- The `while completed_foods < total_foods` loop, by fuel: fetch the page
at the current offset, break on an empty page, skip pages with no new foods,
otherwise run the detail batches, then advance the offset by 200. -/
def proxyLoop (env : ProxyEnv) (total : ℕ) : ℕ → ℕ → ProxySt → ProxySt
  | 0, _, st => st
  | fuel + 1, offset, st =>
      if st.completedFoods < total then
        let st1 := proxyGate st
        let page := env.searchPages (offset / 200 + 1)
        let st2 := proxyRecord { st1 with searchCalls := st1.searchCalls ++ [offset / 200 + 1] }
        if page.isEmpty then st2
        else
          let newFoods := page.filter (fun f => ¬ f.fdcId ∈ st2.completedIds)
          if newFoods.isEmpty then proxyLoop env total fuel (offset + 200) st2
          else proxyLoop env total fuel (offset + 200)
            (proxyBatchLoop env total (chunks20 newFoods) st2)
      else st

/-- Initial proxy state: fresh, or resumed from a checkpoint's completed and
failed id lists (`completed_ids = set(completed_food_ids + failed_food_ids)`). -/
def proxyInitSt (completed failed : List Int) : ProxySt where
  rl := ⟨0, none⟩
  clock := 0
  completedFoods := completed.length
  failedFoods := failed.length
  completedList := completed
  failedList := failed
  completedIds := completed ++ failed
  searchCalls := []
  detailBatches := []
  pending := []
  db := Db.empty
  saves := 0

/-- A full (exception-free) `populate` run: the loop followed by the final
unconditional progress save. -/
def proxyPopulate (env : ProxyEnv) (total fuel : ℕ) (init : ProxySt) : ProxySt :=
  let st := proxyLoop env total fuel 0 init
  { st with saves := st.saves + 1 }

/-! ## Concrete scenario inputs used by the claim theorems -/

/-- Scenario B detail response: nutrients `[(1008, 165), (9999, 5)]`. -/
def scenarioBFood : FoodDetail :=
  ⟨111, "Chicken, cooked", "chicken", "Poultry Products", "SR Legacy",
   [⟨some 1008, some 165⟩, ⟨some 9999, some 5⟩]⟩

/-- Fresh CLI input with the default target. -/
def inpFresh : ScriptsInput := ⟨5000, false, none⟩

/-- A checkpoint whose failed set contains id 42 (and nothing else). -/
def cpFailed42 : Snap := ⟨5000, [], [42], "in_progress"⟩

/-- Resumed CLI input loading `cpFailed42`. -/
def inpResume42 : ScriptsInput := ⟨5000, true, some cpFailed42⟩

/-- A checkpoint whose completed set contains id 42 (Scenario C). -/
def cpDone42 : Snap := ⟨5000, [42], [], "in_progress"⟩

/-- Resumed CLI input loading `cpDone42`. -/
def inpResumeDone42 : ScriptsInput := ⟨5000, true, some cpDone42⟩

/-- Environment whose search returns the single id 42, whose detail fetch
succeeds with an empty nutrient list, and whose statements never raise. -/
def envSingle42 : ScriptsEnv where
  pages := fun p => if p = 1 then [⟨some 42, "banana"⟩] else []
  totalHits := 1
  detail := fun fid => some ⟨fid, "Banana, raw", "", "Fruits", "", []⟩
  insertErr := fun _ => false

/-- Environment serving 60 foods (ids 1..60) on one page, every detail fetch
succeeding, no statement errors. -/
def env60 : ScriptsEnv where
  pages := fun p =>
    if p = 1 then (List.range 60).map (fun k => ⟨some ((k : Int) + 1), "food"⟩)
    else []
  totalHits := 60
  detail := fun fid => some ⟨fid, "Food", "", "Misc", "", []⟩
  insertErr := fun _ => false

/-- The checkpoint the 50th iteration of a fresh `env60` run writes. -/
def snap50 : Snap := ⟨5000, (List.range 50).map (fun k => (k : Int) + 1), [], "in_progress"⟩

/-- 901 recorded calls spaced one second apart (times in tenths of a second):
all of them lie inside one rolling hour. -/
def scriptsBurst : List ℕ := (List.range 901).map (fun k => 10 * k)

/-- Checkpoint path and contents used in the `Progress.save` theorems. -/
def ckptPath : String := "population_progress.json"

/-- Previous fully-written checkpoint content. -/
def oldCkpt : List String := ["old-checkpoint-json"]

/-- New checkpoint content, streamed in two chunks. -/
def newCkpt : List String := ["new-checkpoint-part1", "new-checkpoint-part2"]

/-- A file system holding the previous checkpoint. -/
def fsOld : FileSys := fun q => if q = ckptPath then some oldCkpt else none

/-- Environment with two foods: food 7 has two catalog nutrients and its
second `food_nutrients` statement raises `sqlite3.Error`; food 8 then
processes successfully, and its in-loop `conn.commit()` also commits
whatever uncommitted statements food 7 left on the connection. -/
def envErr78 : ScriptsEnv where
  pages := fun p => if p = 1 then [⟨some 7, "apple"⟩, ⟨some 8, "pear"⟩] else []
  totalHits := 2
  detail := fun fid =>
    if fid = 7 then
      some ⟨7, "Apple, raw", "", "Fruits", "", [⟨some 1008, some 52⟩, ⟨some 1003, some 1⟩]⟩
    else
      some ⟨8, "Pear, raw", "", "Fruits", "", [⟨some 1008, some 57⟩]⟩
  insertErr := fun op => decide (op = DbOp.insertNutrient 7 1003 1)

/-- A scripts-variant environment reporting 450 total hits (Scenario A) with
empty pages. -/
def env450 : ScriptsEnv where
  pages := fun _ => []
  totalHits := 450
  detail := fun _ => none
  insertErr := fun _ => false

/-- Scenario A mock for the proxy loop: 450 total records served as pages of
200, 200 and 50; later pages empty; detail responses empty. -/
def scenarioAEnv : ProxyEnv where
  searchPages := fun p =>
    if p = 1 then (List.range 200).map (fun k => ⟨(k : Int) + 1, "a"⟩)
    else if p = 2 then (List.range 200).map (fun k => ⟨(k : Int) + 201, "b"⟩)
    else if p = 3 then (List.range 50).map (fun k => ⟨(k : Int) + 401, "c"⟩)
    else []
  detail := fun _ => none

/-- Proxy environment serving one food, whose detail fetch succeeds. -/
def envProxyOneFood : ProxyEnv where
  searchPages := fun p => if p = 1 then [⟨7, "Apple"⟩] else []
  detail := fun fid =>
    if fid = 7 then some ⟨7, "Apple, raw", "apple", "Fruits", "SR Legacy", []⟩ else none

/-! ## Target-override projections (used to state target noninterference) -/

/-- Override the recorded target of a checkpoint document. -/
def retargetSnap (x : Int) (s : Snap) : Snap := { s with target := x }

/-- Override the target everywhere it is recorded in a loop state: the state
field and every saved checkpoint. -/
def retargetSt (x : Int) (st : ScriptsSt) : ScriptsSt :=
  { st with target := x, saves := st.saves.map (retargetSnap x) }

/-! ## Claim theorems: concrete evaluations -/

/-- C1: the claim says every persisted FoodNutrientValue's nutrient id is in
the seeded catalog and that on Scenario B exactly one row is persisted.  The
scripts variant does filter (one row, code 9999 dropped), but the proxy
variant's `insert_food` checks only truthiness and amount presence, so on the
same response it persists two `food_nutrients` rows, including nutrient 9999,
which is in neither variant's seeded catalog — the code contradicts its own
"Tracks 52 nutrients" header and the twin script's filter. -/
theorem C1_nutrient_filter_eval :
    scriptsNutrientValues scenarioBFood.nutrients = [(1008, 165)] ∧
    nutrientInserts (proxyInsertFoodOps scenarioBFood) =
      [⟨111, 1008, 165⟩, ⟨111, 9999, 5⟩] ∧
    (9999 : Int) ∉ NUTRIENT_IDS ∧ (9999 : Int) ∉ proxyNutrientIds := by
  exact ⟨by decide, by decide, by decide, by decide⟩

/-- C2 counterexample: a resumed scripts-variant run whose checkpoint marks
id 42 as failed issues a detail-fetch call for 42 (the loop skips only the
completed set), refuting "zero detail-fetch calls for every id in the
completed set or failed set". -/
theorem C2_counterexample :
    (42 : Int) ∈ cpFailed42.failed ∧ inpResume42.resume = true ∧
    inpResume42.checkpoint = some cpFailed42 ∧
    (scriptsPopulate envSingle42 inpResume42).st.detailCalls = [42] := by
  exact ⟨by decide, rfl, rfl, by decide⟩

set_option maxRecDepth 100000 in
/-- C3: the claim says a caught termination signal saves the checkpoint
unconditionally before exit.  In the scripts variant, `main` catches
`KeyboardInterrupt`, prints "Interrupted by user. Progress saved." and exits
without calling `Progress.save` (the `progress` object is not even in
scope), so interrupting an `env60` run after all 60 foods leaves on disk the
checkpoint of iteration 50 — ten completions behind the in-memory state —
contradicting both the claim and the message the handler itself prints. -/
theorem C3_interrupt_not_saved :
    scriptsDiskAfterInterrupt env60 inpFresh 60 = some snap50 ∧
    snap50.completed.length = 50 ∧
    (scriptsStateAfter env60 inpFresh 60).completed.length = 60 ∧
    ¬ scriptsDiskAfterInterrupt env60 inpFresh 60 =
        some (scriptsStateAfter env60 inpFresh 60).snap := by
  exact ⟨by decide, by decide, by decide, by decide⟩

set_option maxRecDepth 1000000 in
/-- C4 counterexample: the scripts variant's `can_make_api_call` only
requires 0.1 s since the last call.  It admits a burst of 901 calls spaced
one second apart — all inside one rolling hour — and still returns true one
tenth of a second after the 901st, although the rolling-window count (901)
is not below the ceiling (900); the claimed equivalence and the ≤-ceiling
window invariant both fail. -/
theorem C4_counterexample :
    scriptsGateOk none scriptsBurst = true ∧
    scriptsBurst.getLast? = some 9000 ∧
    scriptsCanCall 9001 (some 9000) = true ∧
    rollingWindowCount scriptsBurst 9001 = 901 ∧
    ¬ rollingWindowCount scriptsBurst 9001 < RATE_LIMIT_PER_HOUR := by
  exact ⟨by decide, by decide, by decide, by decide, by decide⟩

/-- C5 counterexample: `Progress.save` opens the checkpoint file itself in
truncating write mode; a crash right after the open (before any chunk is
written) leaves an empty file — neither the previous checkpoint nor the new
one — so the save is not atomic. -/
theorem C5_counterexample :
    fsGet (applyFsOps fsOld ((progressSaveOps ckptPath newCkpt).take 1)) ckptPath =
      some [] ∧
    some ([] : List String) ≠ some oldCkpt ∧
    some ([] : List String) ≠ some newCkpt := by
  exact ⟨by decide, by decide, by decide⟩

/-- C6 counterexample: food 7 has two catalog nutrients; its second
`food_nutrients` statement raises, the error is caught with no rollback and
the id is marked failed, so its food row and first nutrient row stay
pending on the connection — and the `conn.commit()` issued when the next
food (id 8) succeeds makes them durable: after the loop, failed food 7 has
its `usda_foods` row and exactly one of its two intended nutrient rows in
the durable store, refuting per-food atomicity. -/
theorem C6_counterexample :
    (7 : Int) ∈ (scriptsStateAfter envErr78 inpFresh 2).failed ∧
    (8 : Int) ∈ (scriptsStateAfter envErr78 inpFresh 2).completed ∧
    (scriptsStateAfter envErr78 inpFresh 2).db.foods.filter
        (fun r => r.fdc_id = 7) = [⟨7, "Apple, raw", "apple", "Fruits", ""⟩] ∧
    (scriptsStateAfter envErr78 inpFresh 2).db.nutrients.filter
        (fun r => r.fdc_id = 7) = [⟨7, 1008, 52⟩] ∧
    scriptsNutrientValues ((envErr78.detail 7).getD scenarioBFood).nutrients =
      [(1008, 52), (1003, 1)] := by
  exact ⟨by decide, by decide, by decide, by decide, by decide⟩

set_option maxRecDepth 1000000 in
/-- C7 counterexample: on the Scenario A mock (450 records at page size 200)
the proxy variant's collector does not compute `ceil(450/200) = 3` pages up
front: it keeps fetching until an empty page and issues 4 page fetches, not
exactly 3. -/
theorem C7_counterexample :
    (proxyPopulate scenarioAEnv 5000 10 (proxyInitSt [] [])).searchCalls = [1, 2, 3, 4] ∧
    ¬ (proxyPopulate scenarioAEnv 5000 10 (proxyInitSt [] [])).searchCalls.length = 3 := by
  exact ⟨by decide, by decide⟩

/-- C8 counterexample: resuming the scripts variant from a checkpoint whose
failed set holds id 42 re-fetches 42; on success 42 is appended to the
completed list while remaining in the failed list, so the two checkpoint
sets intersect. -/
theorem C8_counterexample :
    (42 : Int) ∈ (scriptsPopulate envSingle42 inpResume42).st.completed ∧
    (42 : Int) ∈ (scriptsPopulate envSingle42 inpResume42).st.failed := by
  exact ⟨by decide, by decide⟩

set_option maxRecDepth 100000 in
/-- C9 counterexample: the proxy variant's `insert_food` performs one FTS
write per inserted record during ingestion (and has no post-load bulk
build): after ingesting a single food, the search index already holds its
row, refuting "the full-text search index is never modified during the
detail-fetch stage". -/
theorem C9_counterexample :
    (proxyInsertFoodOps ⟨7, "Apple, raw", "apple", "Fruits", "SR Legacy", []⟩).countP
        isFtsWrite = 1 ∧
    (proxyPopulate envProxyOneFood 5000 5 (proxyInitSt [] [])).db.fts =
      [(7, "Apple, raw", "apple")] := by
  exact ⟨by decide, by decide⟩

/-! ## Branch structure of one loop iteration -/

/-- The periodic-save check changes only the saved-checkpoint list. -/
theorem saveCheck_completed (i : ℕ) (st : ScriptsSt) :
    (scriptsSaveCheck i st).completed = st.completed := by
  unfold scriptsSaveCheck; split <;> rfl

/-- The periodic-save check leaves the failed list alone. -/
theorem saveCheck_failed (i : ℕ) (st : ScriptsSt) :
    (scriptsSaveCheck i st).failed = st.failed := by
  unfold scriptsSaveCheck; split <;> rfl

/-- The periodic-save check leaves the detail-call log alone. -/
theorem saveCheck_detailCalls (i : ℕ) (st : ScriptsSt) :
    (scriptsSaveCheck i st).detailCalls = st.detailCalls := by
  unfold scriptsSaveCheck; split <;> rfl

/-- The periodic-save check leaves the statement log alone. -/
theorem saveCheck_opsLog (i : ℕ) (st : ScriptsSt) :
    (scriptsSaveCheck i st).opsLog = st.opsLog := by
  unfold scriptsSaveCheck; split <;> rfl

/-- The periodic-save check leaves the durable tables alone. -/
theorem saveCheck_db (i : ℕ) (st : ScriptsSt) :
    (scriptsSaveCheck i st).db = st.db := by
  unfold scriptsSaveCheck; split <;> rfl

/-- The periodic-save check leaves the pending statements alone. -/
theorem saveCheck_pending (i : ℕ) (st : ScriptsSt) :
    (scriptsSaveCheck i st).pending = st.pending := by
  unfold scriptsSaveCheck; split <;> rfl

/-- Checkpoints saved by the periodic check: the old ones, plus possibly the
current state's. -/
theorem saveCheck_saves (i : ℕ) (st : ScriptsSt) :
    ∀ sv ∈ (scriptsSaveCheck i st).saves, sv ∈ st.saves ∨ sv = st.snap := by
  unfold scriptsSaveCheck
  split
  · intro sv hsv
    rcases List.mem_append.mp hsv with h | h
    · exact Or.inl h
    · exact Or.inr (List.mem_singleton.mp h)
  · exact fun sv hsv => Or.inl hsv

/-- Writing one food never touches the detail-call log. -/
theorem commitFood_detailCalls (env : ScriptsEnv) (fid : Int) (s : FoodSummary)
    (d : FoodDetail) (st1 : ScriptsSt) :
    (scriptsCommitFood env fid s d st1).detailCalls = st1.detailCalls := by
  simp only [scriptsCommitFood]
  split <;> rfl

/-- Writing one food never touches the saved-checkpoint list. -/
theorem commitFood_saves (env : ScriptsEnv) (fid : Int) (s : FoodSummary)
    (d : FoodDetail) (st1 : ScriptsSt) :
    (scriptsCommitFood env fid s d st1).saves = st1.saves := by
  simp only [scriptsCommitFood]
  split <;> rfl

/-- Writing one food never touches the target or status fields. -/
theorem commitFood_target (env : ScriptsEnv) (fid : Int) (s : FoodSummary)
    (d : FoodDetail) (st1 : ScriptsSt) :
    (scriptsCommitFood env fid s d st1).target = st1.target ∧
    (scriptsCommitFood env fid s d st1).status = st1.status := by
  simp only [scriptsCommitFood]
  split <;> exact ⟨rfl, rfl⟩

/-- Writing one food appends its id to exactly one of the two sets. -/
theorem commitFood_sets (env : ScriptsEnv) (fid : Int) (s : FoodSummary)
    (d : FoodDetail) (st1 : ScriptsSt) :
    ((scriptsCommitFood env fid s d st1).completed = st1.completed ∧
      (scriptsCommitFood env fid s d st1).failed = st1.failed ++ [fid]) ∨
    ((scriptsCommitFood env fid s d st1).completed = st1.completed ++ [fid] ∧
      (scriptsCommitFood env fid s d st1).failed = st1.failed) := by
  simp only [scriptsCommitFood]
  split
  · exact Or.inl ⟨rfl, rfl⟩
  · exact Or.inr ⟨rfl, rfl⟩

/-! ## C2: resumed runs and the completed set -/

/-- One loop iteration never issues a detail call for an id already in the
completed set, and never removes such an id from the set. -/
theorem processOne_completed_mem (env : ScriptsEnv) (i : ℕ) (fid : Int)
    (s : FoodSummary) (st : ScriptsSt) (id : Int) (h : id ∈ st.completed) :
    id ∈ (scriptsProcessOne env i fid s st).completed ∧
    (scriptsProcessOne env i fid s st).detailCalls.count id =
      st.detailCalls.count id := by
  by_cases hc : fid ∈ st.completed
  · simp [scriptsProcessOne, hc, h]
  · have hne : id ≠ fid := fun he => hc (he ▸ h)
    simp only [scriptsProcessOne, hc, if_false]
    cases hd : env.detail fid with
    | none => simp [h, List.count_append, List.count_cons, hne]
    | some d =>
      constructor
      · rw [saveCheck_completed]
        rcases commitFood_sets env fid s d _ with ⟨h1, _⟩ | ⟨h1, _⟩ <;> rw [h1]
        · exact h
        · exact List.mem_append.mpr (Or.inl h)
      · rw [saveCheck_detailCalls, commitFood_detailCalls]
        simp [List.count_append, List.count_cons, hne]

/-- The detail-fetch loop never issues a detail call for an id already in
the completed set when it starts. -/
theorem detailLoop_skips_completed (env : ScriptsEnv)
    (l : List (Int × FoodSummary)) (id : Int) :
    ∀ (i : ℕ) (st : ScriptsSt), id ∈ st.completed →
      id ∈ (scriptsDetailLoop env l i st).completed ∧
      (scriptsDetailLoop env l i st).detailCalls.count id =
        st.detailCalls.count id := by
  induction l with
  | nil => exact fun i st h => ⟨h, rfl⟩
  | cons p rest ih =>
    intro i st h
    obtain ⟨fid, s⟩ := p
    obtain ⟨h1, h2⟩ := processOne_completed_mem env i fid s st id h
    obtain ⟨h3, h4⟩ := ih (i + 1) (scriptsProcessOne env i fid s st) h1
    exact ⟨h3, by rw [scriptsDetailLoop, h4, h2]⟩

set_option maxRecDepth 10000 in
/-- C2 (amended): for every scripts-variant run started with resume=true
from a loaded checkpoint and every id in the checkpoint's completed set, the
run issues zero detail-fetch calls for that id.  (Ids in the failed set are
re-fetched by this variant — see the counterexample — while the proxy
variant skips both sets.) -/
theorem C2_amended (env : ScriptsEnv) (inp : ScriptsInput) (cp : Snap)
    (id : Int) (hres : inp.resume = true) (hcp : inp.checkpoint = some cp)
    (hid : id ∈ cp.completed) :
    id ∉ (scriptsPopulate env inp).st.detailCalls := by
  have hsnap : scriptsInitSnap inp = cp := by
    unfold scriptsInitSnap
    rw [hres, hcp]
  unfold scriptsPopulate
  by_cases h0 : env.totalHits = 0
  · simp [h0, scriptsInitSt]
  · simp only [h0, if_false]
    have hfin : (scriptsFinalize (scriptsIngest env inp)).detailCalls =
        (scriptsIngest env inp).detailCalls := rfl
    have hinit : id ∈ (scriptsInitSt env (scriptsInitSnap inp)).completed := by
      rw [hsnap]; exact hid
    have h := detailLoop_skips_completed env
      (scriptsCollect env (scriptsInitSnap inp).completed) id 1
      (scriptsInitSt env (scriptsInitSnap inp)) hinit
    intro hmem
    rw [hfin] at hmem
    have hcount : (scriptsIngest env inp).detailCalls.count id = 0 := by
      unfold scriptsIngest
      exact h.2
    rw [List.count_eq_zero] at hcount
    exact hcount (by exact hmem)

/-- Witness for C2 (amended): Scenario C — resuming with a checkpoint that
marks id 42 completed issues zero detail-fetch calls for 42. -/
theorem C2_amended_witness :
    (42 : Int) ∉ (scriptsPopulate envSingle42 inpResumeDone42).st.detailCalls :=
  C2_amended envSingle42 inpResumeDone42 cpDone42 42 rfl rfl (by decide)

/-! ## C8: disjointness of the completed and failed sets -/

/-- Key membership of an association list, as tested by the code's
`any`-style presence checks. -/
theorem mem_keys_iff_any {α : Type} (m : List (Int × α)) (k : Int) :
    m.any (fun p => p.1 = k) = true ↔ k ∈ m.map Prod.fst := by
  simp [List.any_eq_true, List.mem_map]

/-- Lemma: `dictSet` on a present key preserves the key sequence. -/
theorem dictSet_keys_of_any {α : Type} (m : List (Int × α)) (k : Int) (v : α)
    (h : m.any (fun p => p.1 = k) = true) :
    (dictSet m k v).map Prod.fst = m.map Prod.fst := by
  unfold dictSet
  rw [if_pos h, List.map_map]
  have he : (Prod.fst ∘ fun p : Int × α => if p.1 = k then (k, v) else p) = Prod.fst := by
    funext p
    by_cases hp : p.1 = k <;> simp [hp]
  rw [he]

/-- Lemma: `dictSet` on an absent key appends it. -/
theorem dictSet_keys_of_not_any {α : Type} (m : List (Int × α)) (k : Int) (v : α)
    (h : m.any (fun p => p.1 = k) = false) :
    (dictSet m k v).map Prod.fst = m.map Prod.fst ++ [k] := by
  unfold dictSet
  rw [if_neg (by simp [h]), List.map_append]
  rfl

/-- Lemma: `dictSet` preserves key distinctness. -/
theorem dictSet_keys_nodup {α : Type} (m : List (Int × α)) (k : Int) (v : α)
    (h : (m.map Prod.fst).Nodup) : ((dictSet m k v).map Prod.fst).Nodup := by
  cases ha : m.any (fun p => p.1 = k) with
  | true => rw [dictSet_keys_of_any m k v ha]; exact h
  | false =>
    rw [dictSet_keys_of_not_any m k v ha]
    have hk : k ∉ m.map Prod.fst := fun hmem =>
      by rw [(mem_keys_iff_any m k).mpr hmem] at ha; cases ha
    simp [List.nodup_append, h, hk]

/-- A fold whose step preserves key distinctness preserves it overall. -/
theorem foldl_keys_nodup {α β : Type} (step : List (Int × α) → β → List (Int × α))
    (hstep : ∀ m f, (m.map Prod.fst).Nodup → ((step m f).map Prod.fst).Nodup) :
    ∀ (l : List β) (m : List (Int × α)),
      (m.map Prod.fst).Nodup → ((l.foldl step m).map Prod.fst).Nodup := by
  intro l
  induction l with
  | nil => exact fun m h => h
  | cons b rest ih => exact fun m h => ih _ (hstep m b h)

/-- Page-1 collection steps keep keys distinct. -/
theorem collectPage1Step_nodup (completed : List Int) (m : List (Int × FoodSummary))
    (f : FoodSummary) (h : (m.map Prod.fst).Nodup) :
    ((collectPage1Step completed m f).map Prod.fst).Nodup := by
  unfold collectPage1Step
  cases truthyId f.fdcId with
  | none => exact h
  | some id =>
    by_cases hc : id ∈ completed
    · simpa [hc] using h
    · simpa [hc] using dictSet_keys_nodup m id f h

/-- Later-page collection steps keep keys distinct. -/
theorem addPageStep_nodup (completed : List Int) (m : List (Int × FoodSummary))
    (f : FoodSummary) (h : (m.map Prod.fst).Nodup) :
    ((addPageStep completed m f).map Prod.fst).Nodup := by
  unfold addPageStep
  cases truthyId f.fdcId with
  | none => exact h
  | some id =>
    cases ha : m.any (fun p => p.1 = id) with
    | true => simpa [ha] using h
    | false =>
      have hk : id ∉ m.map Prod.fst := fun hmem =>
        by rw [(mem_keys_iff_any m id).mpr hmem] at ha; cases ha
      by_cases hc : id ∈ completed
      · simpa [ha, hc] using h
      · simp only [ha, hc, if_false, Bool.false_eq_true, if_true]
        rw [List.map_append]
        simp [List.nodup_append, h, hk]

/-- The ids collected by the pagination pass are pairwise distinct. -/
theorem scriptsCollect_keys_nodup (env : ScriptsEnv) (completed : List Int) :
    ((scriptsCollect env completed).map Prod.fst).Nodup := by
  unfold scriptsCollect
  refine foldl_keys_nodup _ ?_ _ _ ?_
  · intro m p hm
    unfold scriptsAddPage
    exact foldl_keys_nodup _ (addPageStep_nodup completed) (env.pages p) m hm
  · unfold scriptsCollectPage1
    exact foldl_keys_nodup _ (collectPage1Step_nodup completed) (env.pages 1) [] (by simp)

/-- How one loop iteration can change the completed list, the failed list
and the saved-checkpoint list. -/
theorem processOne_sets (env : ScriptsEnv) (i : ℕ) (fid : Int) (s : FoodSummary)
    (st : ScriptsSt) :
    ((scriptsProcessOne env i fid s st).completed = st.completed ∧
      (scriptsProcessOne env i fid s st).failed = st.failed) ∨
    ((scriptsProcessOne env i fid s st).completed = st.completed ∧
      (scriptsProcessOne env i fid s st).failed = st.failed ++ [fid]) ∨
    ((scriptsProcessOne env i fid s st).completed = st.completed ++ [fid] ∧
      (scriptsProcessOne env i fid s st).failed = st.failed) := by
  by_cases hc : fid ∈ st.completed
  · simp [scriptsProcessOne, hc]
  · simp only [scriptsProcessOne, hc, if_false]
    cases hd : env.detail fid with
    | none => exact Or.inr (Or.inl ⟨rfl, rfl⟩)
    | some d =>
      rcases commitFood_sets env fid s d
          { st with detailCalls := st.detailCalls ++ [fid] } with ⟨h1, h2⟩ | ⟨h1, h2⟩
      · exact Or.inr (Or.inl ⟨by rw [saveCheck_completed, h1],
          by rw [saveCheck_failed, h2]⟩)
      · exact Or.inr (Or.inr ⟨by rw [saveCheck_completed, h1],
          by rw [saveCheck_failed, h2]⟩)

/-- Checkpoints saved by one loop iteration: the old ones, plus possibly one
recording the iteration's final sets. -/
theorem processOne_saves (env : ScriptsEnv) (i : ℕ) (fid : Int) (s : FoodSummary)
    (st : ScriptsSt) :
    ∀ sv ∈ (scriptsProcessOne env i fid s st).saves, sv ∈ st.saves ∨
      (sv.completed = (scriptsProcessOne env i fid s st).completed ∧
       sv.failed = (scriptsProcessOne env i fid s st).failed) := by
  by_cases hc : fid ∈ st.completed
  · simp only [scriptsProcessOne, hc, if_true]
    exact fun sv hsv => Or.inl hsv
  · simp only [scriptsProcessOne, hc, if_false]
    cases hd : env.detail fid with
    | none => exact fun sv hsv => Or.inl hsv
    | some d =>
      intro sv hsv
      rcases saveCheck_saves i _ sv hsv with hmem | heq
      · rw [commitFood_saves] at hmem
        exact Or.inl hmem
      · refine Or.inr ⟨?_, ?_⟩
        · rw [heq, saveCheck_completed]; rfl
        · rw [heq, saveCheck_failed]; rfl

/-- The loop preserves: the two sets are disjoint, every saved checkpoint's
sets are disjoint, and the remaining foods are untouched ids. -/
theorem detailLoop_disjoint (env : ScriptsEnv) (l : List (Int × FoodSummary)) :
    ∀ (i : ℕ) (st : ScriptsSt), (l.map Prod.fst).Nodup →
      (∀ p ∈ l, p.1 ∉ st.completed ∧ p.1 ∉ st.failed) →
      st.completed.Disjoint st.failed →
      (∀ sv ∈ st.saves, sv.completed.Disjoint sv.failed) →
      (scriptsDetailLoop env l i st).completed.Disjoint
          (scriptsDetailLoop env l i st).failed ∧
        ∀ sv ∈ (scriptsDetailLoop env l i st).saves,
          sv.completed.Disjoint sv.failed := by
  induction l with
  | nil => exact fun i st _ _ h2 h3 => ⟨h2, h3⟩
  | cons p rest ih =>
    intro i st hnd hfresh hdisj hsaves
    obtain ⟨fid, s⟩ := p
    have hfid1 : fid ∉ st.completed := (hfresh (fid, s) (List.mem_cons_self _ _)).1
    have hfid2 : fid ∉ st.failed := (hfresh (fid, s) (List.mem_cons_self _ _)).2
    have htri := processOne_sets env i fid s st
    have hdisj2 : (scriptsProcessOne env i fid s st).completed.Disjoint
        (scriptsProcessOne env i fid s st).failed := by
      rcases htri with ⟨hc, hf⟩ | ⟨hc, hf⟩ | ⟨hc, hf⟩ <;> rw [hc, hf]
      · exact hdisj
      · intro a ha hb
        rcases List.mem_append.mp hb with h | h
        · exact hdisj ha h
        · obtain rfl : a = fid := List.mem_singleton.mp h
          exact hfid1 ha
      · intro a ha hb
        rcases List.mem_append.mp ha with h | h
        · exact hdisj h hb
        · obtain rfl : a = fid := List.mem_singleton.mp h
          exact hfid2 hb
    have hsaves2 : ∀ sv ∈ (scriptsProcessOne env i fid s st).saves,
        sv.completed.Disjoint sv.failed := by
      intro sv hmem
      rcases processOne_saves env i fid s st sv hmem with h | ⟨h1, h2⟩
      · exact hsaves sv h
      · rw [h1, h2]; exact hdisj2
    have hfresh2 : ∀ q ∈ rest, q.1 ∉ (scriptsProcessOne env i fid s st).completed ∧
        q.1 ∉ (scriptsProcessOne env i fid s st).failed := by
      intro q hq
      obtain ⟨hq1, hq2⟩ := hfresh q (List.mem_cons_of_mem _ hq)
      have hqne : q.1 ≠ fid := by
        have := hnd
        simp only [List.map_cons, List.nodup_cons] at this
        exact fun he => this.1 (he ▸ List.mem_map_of_mem Prod.fst hq)
      have hstep : ∀ (lst : List Int), q.1 ∉ lst → q.1 ∉ lst ++ [fid] := by
        intro lst hl hmem
        rcases List.mem_append.mp hmem with h | h
        · exact hl h
        · exact hqne (List.mem_singleton.mp h)
      rcases htri with ⟨hc, hf⟩ | ⟨hc, hf⟩ | ⟨hc, hf⟩ <;> rw [hc, hf]
      · exact ⟨hq1, hq2⟩
      · exact ⟨hq1, hstep _ hq2⟩
      · exact ⟨hstep _ hq1, hq2⟩
    have hnd2 : (rest.map Prod.fst).Nodup := by
      simp only [List.map_cons, List.nodup_cons] at hnd
      exact hnd.2
    exact ih (i + 1) (scriptsProcessOne env i fid s st) hnd2 hfresh2 hdisj2 hsaves2

/-- C8 (amended): in a scripts-variant run started from an empty (absent)
checkpoint, the completed and failed sets are disjoint in every state the
detail-fetch loop reaches, and in every checkpoint it saves.  (Across
resumes the invariant breaks: a previously failed id that succeeds on
re-fetch ends up in both sets — see the counterexample.) -/
theorem C8_amended (env : ScriptsEnv) (inp : ScriptsInput) (k : ℕ)
    (hfresh : inp.checkpoint = none) :
    (scriptsStateAfter env inp k).completed.Disjoint
        (scriptsStateAfter env inp k).failed ∧
      ∀ sv ∈ (scriptsStateAfter env inp k).saves,
        sv.completed.Disjoint sv.failed := by
  have hsnap : scriptsInitSnap inp = ⟨inp.target, [], [], "in_progress"⟩ := by
    unfold scriptsInitSnap
    rw [hfresh]
    cases inp.resume <;> rfl
  unfold scriptsStateAfter
  rw [hsnap]
  apply detailLoop_disjoint
  · rw [List.map_take]
    exact (scriptsCollect_keys_nodup env _).sublist (List.take_sublist _ _)
  · exact fun p _ => ⟨List.not_mem_nil _, List.not_mem_nil _⟩
  · exact fun a ha => absurd ha (List.not_mem_nil a)
  · intro sv hmem
    simp only [scriptsInitSt, List.mem_map] at hmem
    obtain ⟨_, _, he⟩ := hmem
    rw [← he]
    exact fun a ha => absurd ha (List.not_mem_nil a)

/-- Witness for C8 (amended): a fresh single-food run keeps the sets
disjoint in its final state and in every saved checkpoint. -/
theorem C8_amended_witness :
    (scriptsStateAfter envSingle42 inpFresh 1).completed.Disjoint
        (scriptsStateAfter envSingle42 inpFresh 1).failed ∧
      ∀ sv ∈ (scriptsStateAfter envSingle42 inpFresh 1).saves,
        sv.completed.Disjoint sv.failed :=
  C8_amended envSingle42 inpFresh 1 rfl

/-! ## C9: the scripts variant touches the index once, after the loop -/

/-- Statements actually executed are among the submitted block. -/
theorem execStmts_subset (env : ScriptsEnv) :
    ∀ stmts : List DbOp, ∀ op ∈ (execStmts env stmts).1, op ∈ stmts := by
  intro stmts
  induction stmts with
  | nil => exact fun op h => absurd h (List.not_mem_nil op)
  | cons a rest ih =>
    intro op h
    simp only [execStmts] at h
    split at h
    · exact absurd h (List.not_mem_nil op)
    · rcases List.mem_cons.mp h with rfl | h2
      · exact List.mem_cons_self _ _
      · exact List.mem_cons_of_mem _ (ih op h2)

/-- A food's statement block never writes the search index. -/
theorem foodStmts_not_fts (fid : Int) (s : FoodSummary) (d : FoodDetail) :
    ∀ op ∈ scriptsFoodStmts fid s d, isFtsWrite op = false := by
  intro op h
  unfold scriptsFoodStmts at h
  rcases List.mem_cons.mp h with rfl | h2
  · rfl
  · obtain ⟨p, _, rfl⟩ := List.mem_map.mp h2
    rfl

/-- Writing one food appends exactly the executed statements to the log. -/
theorem commitFood_opsLog (env : ScriptsEnv) (fid : Int) (s : FoodSummary)
    (d : FoodDetail) (st1 : ScriptsSt) :
    (scriptsCommitFood env fid s d st1).opsLog =
      st1.opsLog ++ (execStmts env (scriptsFoodStmts fid s d)).1 := by
  simp only [scriptsCommitFood]
  split <;> rfl

/-- One loop iteration adds no search-index write to the statement log. -/
theorem processOne_opsLog_fts (env : ScriptsEnv) (i : ℕ) (fid : Int)
    (s : FoodSummary) (st : ScriptsSt) :
    (scriptsProcessOne env i fid s st).opsLog.countP isFtsWrite =
      st.opsLog.countP isFtsWrite := by
  by_cases hc : fid ∈ st.completed
  · simp [scriptsProcessOne, hc]
  · simp only [scriptsProcessOne, hc, if_false]
    cases hd : env.detail fid with
    | none => rfl
    | some d =>
      rw [saveCheck_opsLog, commitFood_opsLog, List.countP_append]
      have hz : (execStmts env (scriptsFoodStmts fid s d)).1.countP isFtsWrite = 0 := by
        rw [List.countP_eq_zero]
        intro op hop
        have hf := foodStmts_not_fts fid s d op (execStmts_subset env _ op hop)
        simp [hf]
      rw [hz]
      rfl

/-- The whole detail-fetch loop adds no search-index write. -/
theorem detailLoop_opsLog_fts (env : ScriptsEnv) (l : List (Int × FoodSummary)) :
    ∀ (i : ℕ) (st : ScriptsSt),
      (scriptsDetailLoop env l i st).opsLog.countP isFtsWrite =
        st.opsLog.countP isFtsWrite := by
  induction l with
  | nil => exact fun i st => rfl
  | cons p rest ih =>
    intro i st
    obtain ⟨fid, s⟩ := p
    rw [scriptsDetailLoop, ih (i + 1) (scriptsProcessOne env i fid s st),
      processOne_opsLog_fts]

/-- C9 (amended): in the scripts variant, the ingestion phase (pagination
plus the whole detail-fetch loop) executes no statement that writes the
full-text search structure, and the finalize step then executes exactly one
index write — the one-shot `ftsBulkBuild` from the final food table. -/
theorem C9_amended (env : ScriptsEnv) (inp : ScriptsInput) :
    (scriptsIngest env inp).opsLog.countP isFtsWrite = 0 ∧
    (scriptsFinalize (scriptsIngest env inp)).opsLog.countP isFtsWrite = 1 ∧
    (scriptsFinalize (scriptsIngest env inp)).opsLog.countP
      (fun op => decide (op = DbOp.ftsBulkBuild)) = 1 := by
  have h0 : (scriptsIngest env inp).opsLog.countP isFtsWrite = 0 := by
    unfold scriptsIngest
    rw [detailLoop_opsLog_fts]
    rfl
  have hfin : (scriptsFinalize (scriptsIngest env inp)).opsLog =
      (scriptsIngest env inp).opsLog ++ scriptsFinalizeStmts := rfl
  refine ⟨h0, ?_, ?_⟩
  · rw [hfin, List.countP_append, h0]
    rfl
  · have hz : (scriptsIngest env inp).opsLog.countP
        (fun op => decide (op = DbOp.ftsBulkBuild)) = 0 := by
      rw [List.countP_eq_zero]
      intro op hop
      have hf := (List.countP_eq_zero.mp h0) op hop
      simp only [decide_eq_true_eq]
      intro heq
      rw [heq] at hf
      exact hf rfl
    rw [hfin, List.countP_append, hz]
    rfl

/-! ## C7: the scripts collector's page bound -/

/-- A dict assignment grows the map by at most one entry. -/
theorem dictSet_length_le {α : Type} (m : List (Int × α)) (k : Int) (v : α) :
    (dictSet m k v).length ≤ m.length + 1 := by
  unfold dictSet
  split
  · rw [List.length_map]; omega
  · rw [List.length_append]; rfl

/-- A fold whose step grows the list by at most one grows it by at most the
input length. -/
theorem foldl_length_le {α β : Type} (step : List α → β → List α)
    (hstep : ∀ m b, (step m b).length ≤ m.length + 1) :
    ∀ (l : List β) (m : List α), (l.foldl step m).length ≤ m.length + l.length := by
  intro l
  induction l with
  | nil => intro m; simp
  | cons b rest ih =>
    intro m
    have h1 := ih (step m b)
    have h2 := hstep m b
    simp only [List.foldl_cons, List.length_cons]
    omega

/-- Each page-1 food adds at most one collected entry. -/
theorem collectPage1Step_length (completed : List Int)
    (m : List (Int × FoodSummary)) (f : FoodSummary) :
    (collectPage1Step completed m f).length ≤ m.length + 1 := by
  unfold collectPage1Step
  cases truthyId f.fdcId with
  | none => exact Nat.le_succ _
  | some id =>
    by_cases hc : id ∈ completed
    · simp [hc]
    · simpa [hc] using dictSet_length_le m id f

/-- Each later-page food adds at most one collected entry. -/
theorem addPageStep_length (completed : List Int)
    (m : List (Int × FoodSummary)) (f : FoodSummary) :
    (addPageStep completed m f).length ≤ m.length + 1 := by
  unfold addPageStep
  cases truthyId f.fdcId with
  | none => exact Nat.le_succ _
  | some id =>
    cases ha : m.any (fun p => p.1 = id) with
    | true => simp [ha]
    | false =>
      by_cases hc : id ∈ completed
      · simp [ha, hc]
      · simp [ha, hc, List.length_append]

/-- C7 (amended): given `totalHits = 450` in the first response, the scripts
variant computes 3 pages up front and fetches exactly pages 1, 2, 3; and
when the mock serves at most 450 records across those pages, at most 450
unique ids are collected.  (The proxy variant has no such bound: it loops
until an empty page — see the counterexample.) -/
theorem C7_amended (env : ScriptsEnv) (inp : ScriptsInput)
    (h450 : env.totalHits = 450)
    (hsz : (env.pages 1).length + (env.pages 2).length + (env.pages 3).length ≤ 450) :
    (scriptsPopulate env inp).searchCalls = [1, 2, 3] ∧
    (scriptsCollect env (scriptsInitSnap inp).completed).length ≤ 450 := by
  constructor
  · have hcalls : (scriptsPopulate env inp).searchCalls =
        scriptsSearchCalls env.totalHits := by
      unfold scriptsPopulate
      rw [h450]
      rfl
    rw [hcalls, h450]
    rfl
  · set completed := (scriptsInitSnap inp).completed
    have hc : scriptsCollect env completed =
        scriptsAddPage completed (scriptsAddPage completed
          (scriptsCollectPage1 completed (env.pages 1)) (env.pages 2))
          (env.pages 3) := by
      unfold scriptsCollect scriptsTotalPages
      rw [h450]
      rfl
    rw [hc]
    have h1 : (scriptsCollectPage1 completed (env.pages 1)).length ≤
        (env.pages 1).length := by
      unfold scriptsCollectPage1
      have := foldl_length_le (collectPage1Step completed)
        (collectPage1Step_length completed) (env.pages 1) []
      simpa using this
    have h2 := foldl_length_le (addPageStep completed)
      (addPageStep_length completed) (env.pages 2)
      (scriptsCollectPage1 completed (env.pages 1))
    have h3 := foldl_length_le (addPageStep completed)
      (addPageStep_length completed) (env.pages 3)
      (scriptsAddPage completed
        (scriptsCollectPage1 completed (env.pages 1)) (env.pages 2))
    unfold scriptsAddPage at h2 h3 ⊢
    omega

/-- Witness for C7 (amended): a mocked first response with 450 total hits
produces exactly the three page fetches and at most 450 unique ids. -/
theorem C7_amended_witness :
    (scriptsPopulate env450 inpFresh).searchCalls = [1, 2, 3] ∧
    (scriptsCollect env450 (scriptsInitSnap inpFresh).completed).length ≤ 450 :=
  C7_amended env450 inpFresh rfl (by decide)

/-! ## C5: what `Progress.save` can leave on disk -/

/-- Streaming chunks into an existing file appends them in order. -/
theorem applyFsOps_writes (path : String) :
    ∀ (chunks : List String) (fs : FileSys) (l : List String),
      fsGet fs path = some l →
      fsGet (applyFsOps fs (chunks.map (fun c => FsOp.writeChunk path c))) path =
        some (l ++ chunks) := by
  intro chunks
  induction chunks with
  | nil => intro fs l h; simpa using h
  | cons c cs ih =>
    intro fs l h
    have h2 : fsGet (applyFsOp fs (FsOp.writeChunk path c)) path = some (l ++ [c]) := by
      simp [applyFsOp, fsGet, fsSet, show fs path = some l from h]
    have h3 := ih (applyFsOp fs (FsOp.writeChunk path c)) (l ++ [c]) h2
    have hstep : applyFsOps fs ((c :: cs).map (fun x => FsOp.writeChunk path x)) =
        applyFsOps (applyFsOp fs (FsOp.writeChunk path c))
          (cs.map (fun x => FsOp.writeChunk path x)) := rfl
    rw [hstep, h3]
    simp

/-- A crash at any point while streaming the chunks (or at the final close)
leaves some prefix of the chunks appended. -/
theorem applyFsOps_writes_prefix (path : String) :
    ∀ (chunks : List String) (fs : FileSys) (l : List String) (pre : List FsOp),
      fsGet fs path = some l →
      pre <+: (chunks.map (fun c => FsOp.writeChunk path c) ++ [FsOp.closeFile path]) →
      ∃ m, fsGet (applyFsOps fs pre) path = some (l ++ chunks.take m) := by
  intro chunks
  induction chunks with
  | nil =>
    intro fs l pre h hpre
    cases pre with
    | nil => exact ⟨0, by simpa using h⟩
    | cons op pre2 =>
      simp only [List.map_nil, List.nil_append] at hpre
      rw [List.cons_prefix_cons] at hpre
      obtain ⟨rfl, hpre2⟩ := hpre
      have hnil : pre2 = [] := List.eq_nil_of_prefix_nil hpre2
      subst hnil
      exact ⟨0, by simpa [applyFsOps, applyFsOp] using h⟩
  | cons c cs ih =>
    intro fs l pre h hpre
    cases pre with
    | nil => exact ⟨0, by simpa using h⟩
    | cons op pre2 =>
      simp only [List.map_cons, List.cons_append] at hpre
      rw [List.cons_prefix_cons] at hpre
      obtain ⟨rfl, hpre2⟩ := hpre
      have h2 : fsGet (applyFsOp fs (FsOp.writeChunk path c)) path = some (l ++ [c]) := by
        simp [applyFsOp, fsGet, fsSet, show fs path = some l from h]
      obtain ⟨m, hm⟩ := ih (applyFsOp fs (FsOp.writeChunk path c)) (l ++ [c]) pre2 h2 hpre2
      refine ⟨m + 1, ?_⟩
      have hstep : applyFsOps fs (FsOp.writeChunk path c :: pre2) =
          applyFsOps (applyFsOp fs (FsOp.writeChunk path c)) pre2 := rfl
      rw [hstep, hm]
      simp

/-- C5 (amended): `Progress.save` truncates the checkpoint file in place and
streams the new JSON into it.  A completed save leaves exactly the new
content; but a crash at any intermediate point leaves either the old file
(crash before the open) or some prefix of the new content — possibly empty,
and in general neither the old nor the new checkpoint.  There is no
temporary file and no rename. -/
theorem C5_amended (fs : FileSys) (path : String) (content : List String)
    (pre : List FsOp) (hpre : pre <+: progressSaveOps path content) :
    fsGet (applyFsOps fs (progressSaveOps path content)) path = some content ∧
    (fsGet (applyFsOps fs pre) path = fsGet fs path ∨
      ∃ m, fsGet (applyFsOps fs pre) path = some (content.take m)) := by
  have h0 : fsGet (applyFsOp fs (FsOp.openTrunc path)) path = some [] := by
    simp [applyFsOp, fsGet, fsSet]
  constructor
  · have hsplit : applyFsOps fs (progressSaveOps path content) =
        applyFsOps (applyFsOp fs (FsOp.openTrunc path))
          (content.map (fun c => FsOp.writeChunk path c) ++ [FsOp.closeFile path]) := rfl
    have happ : ∀ (g : FileSys) (ops : List FsOp),
        applyFsOps g (ops ++ [FsOp.closeFile path]) = applyFsOps g ops := by
      intro g ops
      rw [applyFsOps, List.foldl_append]
      rfl
    rw [hsplit, happ]
    have hw := applyFsOps_writes path content (applyFsOp fs (FsOp.openTrunc path)) [] h0
    simpa using hw
  · cases pre with
    | nil => exact Or.inl rfl
    | cons op pre2 =>
      right
      unfold progressSaveOps at hpre
      rw [List.cons_prefix_cons] at hpre
      obtain ⟨rfl, hpre2⟩ := hpre
      obtain ⟨m, hm⟩ := applyFsOps_writes_prefix path content
        (applyFsOp fs (FsOp.openTrunc path)) [] pre2 h0 hpre2
      exact ⟨m, by simpa using hm⟩

/-- Witness for C5 (amended): after a crash that executed only the
truncating open, the checkpoint file is empty — a strict prefix of the new
content; a completed save holds the new content. -/
theorem C5_amended_witness :
    fsGet (applyFsOps fsOld (progressSaveOps ckptPath newCkpt)) ckptPath =
      some newCkpt ∧
    (fsGet (applyFsOps fsOld [FsOp.openTrunc ckptPath]) ckptPath =
        fsGet fsOld ckptPath ∨
      ∃ m, fsGet (applyFsOps fsOld [FsOp.openTrunc ckptPath]) ckptPath =
        some (newCkpt.take m)) :=
  C5_amended fsOld ckptPath newCkpt [FsOp.openTrunc ckptPath]
    ⟨(newCkpt.map (fun c => FsOp.writeChunk ckptPath c) ++ [FsOp.closeFile ckptPath]), rfl⟩

/-! ## C4: what the proxy gate actually guarantees -/

/-- A gate-admitted trace splits at any point. -/
theorem proxyRun_append {s sF : RLState} (a b : List ℕ)
    (h : ProxyRun s (a ++ b) sF) : ∃ s2, ProxyRun s a s2 ∧ ProxyRun s2 b sF := by
  induction a generalizing s with
  | nil => exact ⟨s, ProxyRun.nil s, h⟩
  | cons t rest ih =>
    cases h with
    | cons hstep hrun =>
      obtain ⟨s2, h1, h2⟩ := ih hrun
      exact ⟨s2, ProxyRun.cons hstep h1, h2⟩

/-- After any admitted call the counter is positive and the last-call stamp
is the call's time. -/
theorem proxyStep_post {s s2 : RLState} {t : ℕ} (h : ProxyStep s t s2) :
    1 ≤ s2.count ∧ s2.last = some t := by
  cases h <;> exact ⟨Nat.succ_le_succ (Nat.zero_le _), rfl⟩

/-- Along a stretch of admitted calls whose gaps from the previous call all
stay under one hour, only the `count < 900` branch can fire: the counter
grows by one per call and never passes the ceiling. -/
theorem proxyRun_small_gaps :
    ∀ (ts : List ℕ) (c l : ℕ) (sB : RLState),
      ProxyRun ⟨c, some l⟩ ts sB →
      (∀ x ∈ l :: ts, ∀ y ∈ ts, y - x < 3600) →
      sB.count = c + ts.length ∧ (ts = [] ∨ c + ts.length ≤ 900) := by
  intro ts
  induction ts with
  | nil =>
    intro c l sB h _
    cases h
    exact ⟨rfl, Or.inl rfl⟩
  | cons t rest ih =>
    intro c l sB h hg
    cases h with
    | cons hstep hrun =>
      have hgap : t - l < 3600 :=
        hg l (List.mem_cons_self _ _) t (List.mem_cons_self _ _)
      have hg2 : ∀ x ∈ t :: rest, ∀ y ∈ rest, y - x < 3600 := by
        intro x hx y hy
        exact hg x (List.mem_cons_of_mem l hx) y (List.mem_cons_of_mem t hy)
      cases hstep with
      | bigGap _ _ _ hbig => exact absurd hgap (by omega)
      | underLimit _ _ _ hle hgap2 hcc =>
        obtain ⟨h1, h2⟩ := ih (c + 1) t sB hrun hg2
        refine ⟨by rw [h1]; simp [List.length_cons]; omega, Or.inr ?_⟩
        rcases h2 with hrest | hle2
        · subst hrest
          unfold RATE_LIMIT_PER_HOUR at hcc
          simp only [List.length_cons, List.length_nil]
          omega
        · simp only [List.length_cons]
          omega
      | slipThrough _ _ hc900 => exact absurd hgap (by omega)
      | waited _ _ _ hc900 ht => exact absurd hgap (by omega)

/-- C4 (amended): the proxy's gate (`can_make_api_call` +
`wait_for_rate_limit` + `record_api_call`) guarantees that any stretch of
consecutive admitted calls lying pairwise within one rolling hour contains
at most 900 calls — even across resets, slip-throughs at the exact window
boundary and waits.  (The scripts variant's check enforces only 0.1 s
spacing and has no such bound — see the counterexample.) -/
theorem C4_amended (pre mid post : List ℕ) (s0 sF : RLState)
    (hrun : ProxyRun s0 (pre ++ mid ++ post) sF)
    (hwin : ∀ a ∈ mid, ∀ b ∈ mid, b - a < 3600) :
    mid.length ≤ 900 := by
  rw [List.append_assoc] at hrun
  obtain ⟨sA, hpre, hrest⟩ := proxyRun_append pre (mid ++ post) hrun
  obtain ⟨sB, hmid, hpost⟩ := proxyRun_append mid post hrest
  cases mid with
  | nil => simp
  | cons t1 rest =>
    cases hmid with
    | cons hstep hrun2 =>
      rename_i s2
      obtain ⟨hc1, hl1⟩ := proxyStep_post hstep
      obtain ⟨c1, l1⟩ := s2
      simp only at hl1 hc1
      subst hl1
      have hg : ∀ x ∈ t1 :: rest, ∀ y ∈ rest, y - x < 3600 := by
        intro x hx y hy
        exact hwin x hx y (List.mem_cons_of_mem t1 hy)
      obtain ⟨_, h2⟩ := proxyRun_small_gaps rest c1 t1 sB hrun2 hg
      rcases h2 with rfl | hb
      · simp
      · simp only [List.length_cons]
        omega

/-- Witness for C4 (amended): a fresh-state trace of three calls inside one
hour is admitted and indeed contains at most 900 calls. -/
theorem C4_amended_witness : ([5, 10, 20] : List ℕ).length ≤ 900 :=
  C4_amended [] [5, 10, 20] [] ⟨0, none⟩ ⟨3, some 20⟩
    (ProxyRun.cons (ProxyStep.first 0 5)
      (ProxyRun.cons (ProxyStep.underLimit 1 5 10 (by omega) (by omega) (by decide))
        (ProxyRun.cons (ProxyStep.underLimit 2 10 20 (by omega) (by omega) (by decide))
          (ProxyRun.nil _))))
    (by decide)

/-! ## C6: per-food atomicity under an error-free statement schedule -/

/-- When no statement raises, the whole block executes. -/
theorem execStmts_noErr (env : ScriptsEnv) (herr : ∀ op, env.insertErr op = false) :
    ∀ stmts : List DbOp, execStmts env stmts = (stmts, false) := by
  intro stmts
  induction stmts with
  | nil => rfl
  | cons a rest ih =>
    simp only [execStmts, herr a, Bool.false_eq_true, if_false, ih]

/-- The nutrient filter's step keeps dict keys distinct. -/
theorem nutrientStep_keys_nodup (acc : List (Int × Amount)) (e : RawNutrient)
    (h : (acc.map Prod.fst).Nodup) : ((nutrientStep acc e).map Prod.fst).Nodup := by
  unfold nutrientStep
  cases e.nid with
  | none => exact h
  | some i =>
    cases e.amount with
    | none => exact h
    | some a =>
      by_cases hm : i ∈ NUTRIENT_IDS
      · simpa [hm] using dictSet_keys_nodup acc i a h
      · simpa [hm] using h

/-- The filtered nutrient list never repeats a nutrient id. -/
theorem scriptsNutrientValues_keys_nodup (entries : List RawNutrient) :
    ((scriptsNutrientValues entries).map Prod.fst).Nodup := by
  unfold scriptsNutrientValues
  exact foldl_keys_nodup nutrientStep nutrientStep_keys_nodup entries [] (by simp)

/-- Upserting a food whose id has no row yet appends it. -/
theorem upsertFood_absent (t : List FoodRow) (r : FoodRow)
    (h : t.filter (fun x => x.fdc_id = r.fdc_id) = []) :
    upsertFood t r = t ++ [r] := by
  unfold upsertFood
  rw [if_neg]
  intro hany
  rw [List.any_eq_true] at hany
  obtain ⟨x, hx, he⟩ := hany
  have : x ∈ t.filter (fun y => y.fdc_id = r.fdc_id) := List.mem_filter.mpr ⟨hx, he⟩
  rw [h] at this
  exact absurd this (List.not_mem_nil x)

/-- Upserting a nutrient row whose composite key has no row yet appends it. -/
theorem upsertNut_absent (t : List NutRow) (r : NutRow)
    (h : ∀ x ∈ t, ¬(x.fdc_id = r.fdc_id ∧ x.nutrient_id = r.nutrient_id)) :
    upsertNut t r = t ++ [r] := by
  unfold upsertNut
  rw [if_neg]
  intro hany
  rw [List.any_eq_true] at hany
  obtain ⟨x, hx, he⟩ := hany
  simp only [decide_eq_true_eq] at he
  exact h x hx he

/-- Filtering an appended list by food id. -/
theorem filter_append_nut (t : List NutRow) (r : NutRow) (g : Int) :
    (t ++ [r]).filter (fun x => x.fdc_id = g) =
      t.filter (fun x => x.fdc_id = g) ++ (if r.fdc_id = g then [r] else []) := by
  rw [List.filter_append]
  by_cases hg : r.fdc_id = g <;> simp [hg]

/-- Filtering an appended food list by food id. -/
theorem filter_append_food (t : List FoodRow) (r : FoodRow) (g : Int) :
    (t ++ [r]).filter (fun x => x.fdc_id = g) =
      t.filter (fun x => x.fdc_id = g) ++ (if r.fdc_id = g then [r] else []) := by
  rw [List.filter_append]
  by_cases hg : r.fdc_id = g <;> simp [hg]

/-- Applying the nutrient inserts of one food's block: the food and FTS
tables are untouched; the food's filtered rows gain exactly the mapped
nutrient rows, in order; other foods' rows are untouched. -/
theorem applyNutInserts (fid : Int) :
    ∀ (nv : List (Int × Amount)) (db : Db) (done : List NutRow),
      db.nutrients.filter (fun x => x.fdc_id = fid) = done →
      (∀ r ∈ done, r.nutrient_id ∉ nv.map Prod.fst) →
      (nv.map Prod.fst).Nodup →
      (applyDbOps db (nv.map (fun p => DbOp.insertNutrient fid p.1 p.2))).foods = db.foods ∧
      (applyDbOps db (nv.map (fun p => DbOp.insertNutrient fid p.1 p.2))).fts = db.fts ∧
      (applyDbOps db (nv.map (fun p => DbOp.insertNutrient fid p.1 p.2))).nutrients.filter
          (fun x => x.fdc_id = fid) =
        done ++ nv.map (fun p => (⟨fid, p.1, p.2⟩ : NutRow)) ∧
      ∀ g, ¬g = fid →
        (applyDbOps db (nv.map (fun p => DbOp.insertNutrient fid p.1 p.2))).nutrients.filter
            (fun x => x.fdc_id = g) =
          db.nutrients.filter (fun x => x.fdc_id = g) := by
  intro nv
  induction nv with
  | nil =>
    intro db done hdone hdisj hkeys
    exact ⟨rfl, rfl, by simpa using hdone, fun g hg => rfl⟩
  | cons p rest ih =>
    intro db done hdone hdisj hkeys
    obtain ⟨n, a⟩ := p
    have hup : upsertNut db.nutrients ⟨fid, n, a⟩ = db.nutrients ++ [⟨fid, n, a⟩] := by
      apply upsertNut_absent
      intro x hx ⟨hx1, hx2⟩
      have hxdone : x ∈ done := by
        rw [← hdone]
        exact List.mem_filter.mpr ⟨hx, by simp [hx1]⟩
      have := hdisj x hxdone
      simp only [List.map_cons] at this
      exact this (by rw [hx2]; exact List.mem_cons_self _ _)
    have hstep : applyDbOps db (((n, a) :: rest).map
        (fun p => DbOp.insertNutrient fid p.1 p.2)) =
        applyDbOps { db with nutrients := db.nutrients ++ [⟨fid, n, a⟩] }
          (rest.map (fun p => DbOp.insertNutrient fid p.1 p.2)) := by
      simp only [List.map_cons]
      rw [show applyDbOps db (DbOp.insertNutrient fid n a ::
          rest.map (fun p => DbOp.insertNutrient fid p.1 p.2)) =
        applyDbOps (applyDbOp db (DbOp.insertNutrient fid n a))
          (rest.map (fun p => DbOp.insertNutrient fid p.1 p.2)) from rfl]
      rw [show applyDbOp db (DbOp.insertNutrient fid n a) =
        { db with nutrients := upsertNut db.nutrients ⟨fid, n, a⟩ } from rfl]
      rw [hup]
    have hdone2 : ({ db with nutrients := db.nutrients ++ [⟨fid, n, a⟩] } : Db).nutrients.filter
        (fun x => x.fdc_id = fid) = done ++ [⟨fid, n, a⟩] := by
      show (db.nutrients ++ [(⟨fid, n, a⟩ : NutRow)]).filter (fun x => x.fdc_id = fid) = done ++ [(⟨fid, n, a⟩ : NutRow)]
      rw [filter_append_nut, hdone]
      simp
    have hdisj2 : ∀ r ∈ done ++ [(⟨fid, n, a⟩ : NutRow)],
        r.nutrient_id ∉ rest.map Prod.fst := by
      intro r hr
      rcases List.mem_append.mp hr with h | h
      · have := hdisj r h
        simp only [List.map_cons] at this
        exact fun hmem => this (List.mem_cons_of_mem _ hmem)
      · obtain rfl : r = ⟨fid, n, a⟩ := List.mem_singleton.mp h
        have hn := hkeys
        simp only [List.map_cons, List.nodup_cons] at hn
        exact hn.1
    have hkeys2 : (rest.map Prod.fst).Nodup := by
      simp only [List.map_cons, List.nodup_cons] at hkeys
      exact hkeys.2
    obtain ⟨hf, hfts, hflt, hoth⟩ := ih { db with nutrients := db.nutrients ++ [⟨fid, n, a⟩] }
      (done ++ [⟨fid, n, a⟩]) hdone2 hdisj2 hkeys2
    refine ⟨?_, ?_, ?_, ?_⟩
    · rw [hstep, hf]
    · rw [hstep, hfts]
    · rw [hstep, hflt]
      simp [List.append_assoc]
    · intro g hg
      rw [hstep, hoth g hg]
      show (db.nutrients ++ [(⟨fid, n, a⟩ : NutRow)]).filter (fun x => x.fdc_id = g) =
        db.nutrients.filter (fun x => x.fdc_id = g)
      rw [filter_append_nut]
      simp only [show ((⟨fid, n, a⟩ : NutRow).fdc_id = g) = (fid = g) from rfl]
      rw [if_neg (fun he => hg he.symm)]
      simp

/-- Under an error-free statement schedule, one loop iteration preserves the
per-food all-or-none shape of the durable tables: nothing stays pending, a
completed food's row and complete filtered nutrient list are durable, and a
food not in the completed set has no durable rows at all. -/
theorem processOne_rows (env : ScriptsEnv) (herr : ∀ op, env.insertErr op = false)
    (i : ℕ) (fid0 : Int) (s : FoodSummary) (st : ScriptsSt)
    (hpend : st.pending = [])
    (hinv : ∀ fid : Int,
      (fid ∈ st.completed → ∃ d cn, env.detail fid = some d ∧
        st.db.foods.filter (fun x => x.fdc_id = fid) =
          [⟨fid, d.description, cn, d.category, ""⟩] ∧
        st.db.nutrients.filter (fun x => x.fdc_id = fid) =
          (scriptsNutrientValues d.nutrients).map (fun p => (⟨fid, p.1, p.2⟩ : NutRow))) ∧
      (fid ∉ st.completed →
        st.db.foods.filter (fun x => x.fdc_id = fid) = [] ∧
        st.db.nutrients.filter (fun x => x.fdc_id = fid) = [])) :
    (scriptsProcessOne env i fid0 s st).pending = [] ∧
    ∀ fid : Int,
      (fid ∈ (scriptsProcessOne env i fid0 s st).completed →
        ∃ d cn, env.detail fid = some d ∧
        (scriptsProcessOne env i fid0 s st).db.foods.filter (fun x => x.fdc_id = fid) =
          [⟨fid, d.description, cn, d.category, ""⟩] ∧
        (scriptsProcessOne env i fid0 s st).db.nutrients.filter (fun x => x.fdc_id = fid) =
          (scriptsNutrientValues d.nutrients).map (fun p => (⟨fid, p.1, p.2⟩ : NutRow))) ∧
      (fid ∉ (scriptsProcessOne env i fid0 s st).completed →
        (scriptsProcessOne env i fid0 s st).db.foods.filter (fun x => x.fdc_id = fid) = [] ∧
        (scriptsProcessOne env i fid0 s st).db.nutrients.filter (fun x => x.fdc_id = fid) = []) := by
  by_cases hc : fid0 ∈ st.completed
  · have he : scriptsProcessOne env i fid0 s st = st := by
      simp [scriptsProcessOne, hc]
    rw [he]
    exact ⟨hpend, hinv⟩
  · cases hd : env.detail fid0 with
    | none =>
      have hp : (scriptsProcessOne env i fid0 s st).pending = st.pending := by
        simp [scriptsProcessOne, hc, hd]
      have hdbx : (scriptsProcessOne env i fid0 s st).db = st.db := by
        simp [scriptsProcessOne, hc, hd]
      have hcompx : (scriptsProcessOne env i fid0 s st).completed = st.completed := by
        simp [scriptsProcessOne, hc, hd]
      refine ⟨hp.trans hpend, ?_⟩
      simp only [hdbx, hcompx]
      exact hinv
    | some d =>
      have hstmts := execStmts_noErr env herr (scriptsFoodStmts fid0 s d)
      have hcfpend : (scriptsCommitFood env fid0 s d
          { st with detailCalls := st.detailCalls ++ [fid0] }).pending = [] := by
        simp [scriptsCommitFood, hstmts]
      have hcfdb : (scriptsCommitFood env fid0 s d
          { st with detailCalls := st.detailCalls ++ [fid0] }).db =
          applyDbOps st.db (scriptsFoodStmts fid0 s d) := by
        simp [scriptsCommitFood, hstmts]
        rw [show ({ st with detailCalls := st.detailCalls ++ [fid0] } : ScriptsSt).pending =
          st.pending from rfl, hpend]
        rfl
      have hcfcomp : (scriptsCommitFood env fid0 s d
          { st with detailCalls := st.detailCalls ++ [fid0] }).completed =
          st.completed ++ [fid0] := by
        simp [scriptsCommitFood, hstmts]
      -- the block's effect on the durable tables
      obtain ⟨hc0f, hc0n⟩ := (hinv fid0).2 hc
      have hrow : upsertFood st.db.foods
          ⟨fid0, d.description, s.description, d.category, ""⟩ =
          st.db.foods ++ [⟨fid0, d.description, s.description, d.category, ""⟩] :=
        upsertFood_absent _ _ hc0f
      have hnkeys := scriptsNutrientValues_keys_nodup d.nutrients
      have hdb1 : applyDbOps st.db (scriptsFoodStmts fid0 s d) =
          applyDbOps
            { st.db with foods := (st.db.foods ++
                [⟨fid0, d.description, s.description, d.category, ""⟩]) }
            ((scriptsNutrientValues d.nutrients).map
              (fun p => DbOp.insertNutrient fid0 p.1 p.2)) := by
        unfold scriptsFoodStmts
        rw [show applyDbOps st.db (DbOp.insertFood
            ⟨fid0, d.description, s.description, d.category, ""⟩ ::
            (scriptsNutrientValues d.nutrients).map
              (fun p => DbOp.insertNutrient fid0 p.1 p.2)) =
          applyDbOps (applyDbOp st.db (DbOp.insertFood
            ⟨fid0, d.description, s.description, d.category, ""⟩))
            ((scriptsNutrientValues d.nutrients).map
              (fun p => DbOp.insertNutrient fid0 p.1 p.2)) from rfl]
        rw [show applyDbOp st.db (DbOp.insertFood
            ⟨fid0, d.description, s.description, d.category, ""⟩) =
          { st.db with foods := (upsertFood st.db.foods
            ⟨fid0, d.description, s.description, d.category, ""⟩) } from rfl]
        rw [hrow]
      obtain ⟨hbf, hbfts, hbflt, hboth⟩ := applyNutInserts fid0
        (scriptsNutrientValues d.nutrients)
        { st.db with foods := (st.db.foods ++
            [⟨fid0, d.description, s.description, d.category, ""⟩]) }
        [] (by
          show st.db.nutrients.filter (fun x => x.fdc_id = fid0) = []
          exact hc0n)
        (fun r hr => absurd hr (List.not_mem_nil r)) hnkeys
      -- final state facts
      have hfinpend : (scriptsProcessOne env i fid0 s st).pending = [] := by
        simp only [scriptsProcessOne, hc, if_false, hd]
        rw [saveCheck_pending, hcfpend]
      have hfindb : (scriptsProcessOne env i fid0 s st).db =
          applyDbOps st.db (scriptsFoodStmts fid0 s d) := by
        simp only [scriptsProcessOne, hc, if_false, hd]
        rw [saveCheck_db, hcfdb]
      have hfincomp : (scriptsProcessOne env i fid0 s st).completed =
          st.completed ++ [fid0] := by
        simp only [scriptsProcessOne, hc, if_false, hd]
        rw [saveCheck_completed, hcfcomp]
      refine ⟨hfinpend, ?_⟩
      intro fid
      constructor
      · intro hmem
        rw [hfincomp] at hmem
        rcases List.mem_append.mp hmem with hmem | hmem
        · -- an already-completed food: untouched by this block
          have hne : ¬fid = fid0 := fun he => hc (he ▸ hmem)
          obtain ⟨d2, cn2, hd2, hf2, hn2⟩ := (hinv fid).1 hmem
          refine ⟨d2, cn2, hd2, ?_, ?_⟩
          · rw [hfindb, hdb1, hbf]
            show (st.db.foods ++ [(⟨fid0, d.description, s.description, d.category, ""⟩ :
              FoodRow)]).filter (fun x => x.fdc_id = fid) = _
            rw [filter_append_food]
            rw [if_neg (show ¬((⟨fid0, d.description, s.description, d.category, ""⟩ :
              FoodRow).fdc_id = fid) from fun he => hne he.symm)]
            rw [hf2]
            simp
          · rw [hfindb, hdb1, hboth fid hne]
            show st.db.nutrients.filter (fun x => x.fdc_id = fid) = _
            exact hn2
        · -- the food written by this iteration
          obtain rfl : fid = fid0 := List.mem_singleton.mp hmem
          refine ⟨d, s.description, hd, ?_, ?_⟩
          · rw [hfindb, hdb1, hbf]
            show (st.db.foods ++ [(⟨fid, d.description, s.description, d.category, ""⟩ :
              FoodRow)]).filter (fun x => x.fdc_id = fid) = _
            rw [filter_append_food, hc0f]
            simp
          · rw [hfindb, hdb1, hbflt]
            simp
      · intro hmem
        rw [hfincomp] at hmem
        have hm1 : fid ∉ st.completed := fun h =>
          hmem (List.mem_append.mpr (Or.inl h))
        have hne : ¬fid = fid0 := fun he =>
          hmem (List.mem_append.mpr (Or.inr (he ▸ List.mem_singleton_self fid0)))
        obtain ⟨hf2, hn2⟩ := (hinv fid).2 hm1
        constructor
        · rw [hfindb, hdb1, hbf]
          show (st.db.foods ++ [(⟨fid0, d.description, s.description, d.category, ""⟩ :
            FoodRow)]).filter (fun x => x.fdc_id = fid) = []
          rw [filter_append_food]
          rw [if_neg (show ¬((⟨fid0, d.description, s.description, d.category, ""⟩ :
            FoodRow).fdc_id = fid) from fun he => hne he.symm), hf2]
          simp
        · rw [hfindb, hdb1, hboth fid hne]
          exact hn2

/-- The loop preserves the per-food all-or-none shape under an error-free
statement schedule. -/
theorem detailLoop_rows (env : ScriptsEnv) (herr : ∀ op, env.insertErr op = false)
    (l : List (Int × FoodSummary)) :
    ∀ (i : ℕ) (st : ScriptsSt), st.pending = [] →
      (∀ fid : Int,
        (fid ∈ st.completed → ∃ d cn, env.detail fid = some d ∧
          st.db.foods.filter (fun x => x.fdc_id = fid) =
            [⟨fid, d.description, cn, d.category, ""⟩] ∧
          st.db.nutrients.filter (fun x => x.fdc_id = fid) =
            (scriptsNutrientValues d.nutrients).map (fun p => (⟨fid, p.1, p.2⟩ : NutRow))) ∧
        (fid ∉ st.completed →
          st.db.foods.filter (fun x => x.fdc_id = fid) = [] ∧
          st.db.nutrients.filter (fun x => x.fdc_id = fid) = [])) →
      (scriptsDetailLoop env l i st).pending = [] ∧
      ∀ fid : Int,
        (fid ∈ (scriptsDetailLoop env l i st).completed →
          ∃ d cn, env.detail fid = some d ∧
          (scriptsDetailLoop env l i st).db.foods.filter (fun x => x.fdc_id = fid) =
            [⟨fid, d.description, cn, d.category, ""⟩] ∧
          (scriptsDetailLoop env l i st).db.nutrients.filter (fun x => x.fdc_id = fid) =
            (scriptsNutrientValues d.nutrients).map (fun p => (⟨fid, p.1, p.2⟩ : NutRow))) ∧
        (fid ∉ (scriptsDetailLoop env l i st).completed →
          (scriptsDetailLoop env l i st).db.foods.filter (fun x => x.fdc_id = fid) = [] ∧
          (scriptsDetailLoop env l i st).db.nutrients.filter (fun x => x.fdc_id = fid) = []) := by
  induction l with
  | nil => exact fun i st hp hinv => ⟨hp, hinv⟩
  | cons p rest ih =>
    intro i st hp hinv
    obtain ⟨fid0, s⟩ := p
    obtain ⟨hp2, hinv2⟩ := processOne_rows env herr i fid0 s st hp hinv
    exact ih (i + 1) (scriptsProcessOne env i fid0 s st) hp2 hinv2

/-- C6 (amended): under a statement schedule that never raises, every crash
point of a fresh scripts-variant run satisfies per-food atomicity: a food in
the completed set has its `usda_foods` row and its complete filtered
nutrient-row list durably in the store, and a food not in the completed set
has no rows at all.  (A caught `sqlite3.Error` mid-food breaks this — the
partial statements are never rolled back and a later `conn.commit()`
persists them; see the counterexample.) -/
theorem C6_amended (env : ScriptsEnv) (inp : ScriptsInput) (k : ℕ) (fid : Int)
    (herr : ∀ op, env.insertErr op = false) (hfresh : inp.checkpoint = none) :
    (fid ∈ (scriptsStateAfter env inp k).completed →
      ∃ d cn, env.detail fid = some d ∧
      (scriptsStateAfter env inp k).db.foods.filter (fun x => x.fdc_id = fid) =
        [⟨fid, d.description, cn, d.category, ""⟩] ∧
      (scriptsStateAfter env inp k).db.nutrients.filter (fun x => x.fdc_id = fid) =
        (scriptsNutrientValues d.nutrients).map (fun p => (⟨fid, p.1, p.2⟩ : NutRow))) ∧
    (fid ∉ (scriptsStateAfter env inp k).completed →
      (scriptsStateAfter env inp k).db.foods.filter (fun x => x.fdc_id = fid) = [] ∧
      (scriptsStateAfter env inp k).db.nutrients.filter (fun x => x.fdc_id = fid) = []) := by
  have hsnap : scriptsInitSnap inp = ⟨inp.target, [], [], "in_progress"⟩ := by
    unfold scriptsInitSnap
    rw [hfresh]
    cases inp.resume <;> rfl
  unfold scriptsStateAfter
  rw [hsnap]
  have h := detailLoop_rows env herr
    ((scriptsCollect env (Snap.completed ⟨inp.target, [], [], "in_progress"⟩)).take k) 1
    (scriptsInitSt env ⟨inp.target, [], [], "in_progress"⟩) rfl
    (fun fid2 => ⟨fun hmem => absurd hmem (List.not_mem_nil fid2),
      fun _ => ⟨rfl, rfl⟩⟩)
  exact h.2 fid

/-- Witness for C6 (amended): in the error-free single-food run, food 42 is
completed with its full (empty) nutrient set, all in one commit. -/
theorem C6_amended_witness :
    ∃ d cn, envSingle42.detail 42 = some d ∧
      (scriptsStateAfter envSingle42 inpFresh 1).db.foods.filter
        (fun x => x.fdc_id = 42) = [⟨42, d.description, cn, d.category, ""⟩] ∧
      (scriptsStateAfter envSingle42 inpFresh 1).db.nutrients.filter
        (fun x => x.fdc_id = 42) =
        (scriptsNutrientValues d.nutrients).map (fun p => (⟨42, p.1, p.2⟩ : NutRow)) :=
  (C6_amended envSingle42 inpFresh 1 42 (fun _ => rfl) rfl).1 (by decide)

/-! ## C10: the target count does not influence the run -/

/-- Overriding the target twice keeps only the outer override. -/
theorem retargetSt_retargetSt (x y : Int) (st : ScriptsSt) :
    retargetSt x (retargetSt y st) = retargetSt x st := by
  unfold retargetSt retargetSnap
  simp [List.map_map]

/-- The periodic-save check commutes with the target override. -/
theorem saveCheck_retarget (i : ℕ) (x : Int) (st : ScriptsSt) :
    scriptsSaveCheck i (retargetSt x st) = retargetSt x (scriptsSaveCheck i st) := by
  unfold scriptsSaveCheck
  split
  · simp [retargetSt, retargetSnap, ScriptsSt.snap, List.map_append]
  · rfl

/-- Writing one food commutes with the target override. -/
theorem commitFood_retarget (env : ScriptsEnv) (fid : Int) (s : FoodSummary)
    (d : FoodDetail) (x : Int) (st1 : ScriptsSt) :
    scriptsCommitFood env fid s d (retargetSt x st1) =
      retargetSt x (scriptsCommitFood env fid s d st1) := by
  simp only [scriptsCommitFood]
  split <;> simp [retargetSt]

/-- One loop iteration commutes with the target override. -/
theorem processOne_retarget (env : ScriptsEnv) (i : ℕ) (fid : Int)
    (s : FoodSummary) (x : Int) (st : ScriptsSt) :
    scriptsProcessOne env i fid s (retargetSt x st) =
      retargetSt x (scriptsProcessOne env i fid s st) := by
  have hc2 : (retargetSt x st).completed = st.completed := rfl
  by_cases hc : fid ∈ st.completed
  · have hcx : fid ∈ (retargetSt x st).completed := hc
    simp [scriptsProcessOne, hc, hcx]
  · have hcx : fid ∉ (retargetSt x st).completed := hc
    simp only [scriptsProcessOne, hc, hcx, if_false]
    cases hd : env.detail fid with
    | none => simp [retargetSt]
    | some d =>
      rw [← saveCheck_retarget, ← commitFood_retarget]
      rfl

/-- The whole loop commutes with the target override. -/
theorem detailLoop_retarget (env : ScriptsEnv) (l : List (Int × FoodSummary)) :
    ∀ (i : ℕ) (x : Int) (st : ScriptsSt),
      scriptsDetailLoop env l i (retargetSt x st) =
        retargetSt x (scriptsDetailLoop env l i st) := by
  induction l with
  | nil => exact fun i x st => rfl
  | cons p rest ih =>
    intro i x st
    obtain ⟨fid, s⟩ := p
    rw [scriptsDetailLoop, scriptsDetailLoop, processOne_retarget, ih]

/-- The finalize step commutes with the target override. -/
theorem finalize_retarget (x : Int) (st : ScriptsSt) :
    scriptsFinalize (retargetSt x st) = retargetSt x (scriptsFinalize st) := rfl

/-- The initial loop state for a retargeted checkpoint is the retargeted
initial loop state. -/
theorem initSt_retarget (env : ScriptsEnv) (x : Int) (s0 : Snap) :
    scriptsInitSt env (retargetSnap x s0) = retargetSt x (scriptsInitSt env s0) := by
  unfold scriptsInitSt
  simp [retargetSt, retargetSnap, List.map_map]

/-- C10: two scripts-variant runs that differ only in the `--foods` target
produce the same abort flag, the same page-fetch sequence, and loop states
that agree everywhere except the recorded target: same completed and failed
lists, same detail calls, same executed statements, same durable tables,
and the same saved checkpoints up to their recorded target.  The target is
only stored in the checkpoint and never bounds collection or fetching. -/
theorem C10_target_noninterference (env : ScriptsEnv) (t1 t2 : Int) (res : Bool)
    (cp : Option Snap) :
    (scriptsPopulate env ⟨t1, res, cp⟩).aborted =
      (scriptsPopulate env ⟨t2, res, cp⟩).aborted ∧
    (scriptsPopulate env ⟨t1, res, cp⟩).searchCalls =
      (scriptsPopulate env ⟨t2, res, cp⟩).searchCalls ∧
    retargetSt 0 (scriptsPopulate env ⟨t1, res, cp⟩).st =
      retargetSt 0 (scriptsPopulate env ⟨t2, res, cp⟩).st := by
  have hsnap : ∀ t : Int, scriptsInitSnap ⟨t, res, cp⟩ = scriptsInitSnap ⟨t2, res, cp⟩ ∨
      scriptsInitSnap ⟨t, res, cp⟩ = retargetSnap t ⟨0, [], [], "in_progress"⟩ := by
    intro t
    cases res with
    | false => exact Or.inr rfl
    | true =>
      cases cp with
      | none => exact Or.inr rfl
      | some c => exact Or.inl rfl
  have key : ∀ t : Int, ¬res = true ∨ cp = none →
      scriptsInitSnap ⟨t, res, cp⟩ = retargetSnap t ⟨0, [], [], "in_progress"⟩ := by
    intro t h
    unfold scriptsInitSnap
    rcases h with h | h
    · cases res with
      | false => rfl
      | true => exact absurd rfl h
    · rw [h]; cases res <;> rfl
  by_cases hres : res = true ∧ ∃ c, cp = some c
  · obtain ⟨hr, c, hcp⟩ := hres
    subst hr
    subst hcp
    exact ⟨rfl, rfl, rfl⟩
  · have hside : ¬res = true ∨ cp = none := by
      by_cases h1 : res = true
      · right
        cases cp with
        | none => rfl
        | some c => exact absurd ⟨h1, c, rfl⟩ hres
      · exact Or.inl h1
    have h1 := key t1 hside
    have h2 := key t2 hside
    unfold scriptsPopulate scriptsIngest
    rw [h1, h2]
    by_cases h0 : env.totalHits = 0
    · simp only [h0, if_true]
      refine ⟨by trivial, by trivial, ?_⟩
      rw [initSt_retarget, initSt_retarget, retargetSt_retargetSt, retargetSt_retargetSt]
    · simp only [h0, if_false]
      refine ⟨by trivial, by trivial, ?_⟩
      rw [show (retargetSnap t1 ⟨0, [], [], "in_progress"⟩).completed =
          (Snap.completed ⟨0, [], [], "in_progress"⟩) from rfl]
      rw [show (retargetSnap t2 ⟨0, [], [], "in_progress"⟩).completed =
          (Snap.completed ⟨0, [], [], "in_progress"⟩) from rfl]
      rw [initSt_retarget, initSt_retarget, detailLoop_retarget, detailLoop_retarget,
        finalize_retarget, finalize_retarget, retargetSt_retargetSt, retargetSt_retargetSt]

end Food1
